import Mathlib

/-!
Verification development for the VALON Discovery daemon (CoreDNS plugin and
valonctl encoding package).

Go strings are byte slices; we model them as lists of naturals (each byte
below 256 for well-formed text).  Go stdlib routines used by the code
(encoding/base32, encoding/base64, net.SplitHostPort, net.ParseIP,
strconv.Atoi, strings.ToUpper/ToLower/Index/Split/TrimPrefix/TrimSuffix)
are modelled byte-for-byte on the inputs the daemon handles, with these
documented simplifications:
- base64.StdEncoding / base32.StdEncoding(NoPadding) decoders are
  non-strict exactly as in Go: trailing bits of a final partial quantum
  are discarded without validation (Go has no strict base32 mode, and the
  plugin does not use base64.Strict), padding may appear only in the
  final quantum, and base32 inputs of length 1, 3 or 6 mod 8 are rejected.
- net.SplitHostPort is modelled for non-bracketed addresses (the bracketed
  IPv6 form never occurs in this system's data).
- net.ParseIP is modelled for dotted IPv4 literals (post Go 1.17: no
  leading zeros); the overlay is IPv4-only.
- strconv.Atoi is modelled without the 64-bit overflow bound (ports in
  this system are small).
-/

namespace Valon

/-- Byte strings: Go strings as lists of byte values. -/
abbrev Str := List Nat

/-- Embed a Lean string literal as a byte string (ASCII data only). -/
def str (s : String) : Str := s.toList.map Char.toNat

/-- ASCII uppercasing of one byte, as strings.ToUpper acts on ASCII. -/
def upByte (b : Nat) : Nat := if 97 ≤ b ∧ b ≤ 122 then b - 32 else b

/-- ASCII lowercasing of one byte, as strings.ToLower acts on ASCII. -/
def loByte (b : Nat) : Nat := if 65 ≤ b ∧ b ≤ 90 then b + 32 else b

/-- strings.ToUpper on ASCII data. -/
def upStr (s : Str) : Str := s.map upByte

/-- strings.ToLower on ASCII data. -/
def loStr (s : Str) : Str := s.map loByte

/-- The base64.StdEncoding alphabet. -/
def b64alpha : Str := str "ABCDEFGHIJKLMNOPQRSTUVWXYZabcdefghijklmnopqrstuvwxyz0123456789+/"

/-- The base32.StdEncoding alphabet. -/
def b32alpha : Str := str "ABCDEFGHIJKLMNOPQRSTUVWXYZ234567"

/-- Byte of the base64 symbol with value v. -/
def b64chr (v : Nat) : Nat := b64alpha.getD v 0

/-- Byte of the base32 symbol with value v. -/
def b32chr (v : Nat) : Nat := b32alpha.getD v 0

/-- Go's base64 decodeMap: symbol byte to 6-bit value, none for invalid. -/
def b64val (c : Nat) : Option Nat := b64alpha.findIdx? (fun b => b == c)

/-- Go's base32 decodeMap: symbol byte to 5-bit value, none for invalid. -/
def b32val (c : Nat) : Option Nat := b32alpha.findIdx? (fun b => b == c)

/-- Boolean list-prefix test, as strings.HasPrefix. -/
def isPfx : Str → Str → Bool
  | [], _ => true
  | _ :: _, [] => false
  | a :: as, b :: bs => a == b && isPfx as bs

/-- Boolean list-suffix test, as strings.HasSuffix. -/
def isSfx (sfx s : Str) : Bool :=
  decide (sfx.length ≤ s.length) && s.drop (s.length - sfx.length) == sfx

/-- Decode every byte through a symbol table, failing on the first invalid one. -/
def mapVals (f : Nat → Option Nat) : Str → Option (List Nat)
  | [] => some []
  | c :: cs =>
    match f c, mapVals f cs with
    | some v, some vs => some (v :: vs)
    | _, _ => none

/-- base64.StdEncoding.EncodeToString: bytes to padded base64 symbols. -/
def encB64 : List Nat → Str
  | [] => []
  | [b0] => [b64chr (b0 / 4), b64chr (b0 % 4 * 16), 61, 61]
  | [b0, b1] => [b64chr (b0 / 4), b64chr (b0 % 4 * 16 + b1 / 16), b64chr (b1 % 16 * 4), 61]
  | b0 :: b1 :: b2 :: rest =>
    b64chr (b0 / 4) :: b64chr (b0 % 4 * 16 + b1 / 16) ::
    b64chr (b1 % 16 * 4 + b2 / 64) :: b64chr (b2 % 64) :: encB64 rest

/-- base64.StdEncoding.DecodeString: padded quanta of four symbols, with
Go's non-strict handling (trailing bits of the final quantum dropped,
padding legal only in the final quantum, byte 61 is the pad symbol). -/
def decB64 : Str → Option (List Nat)
  | [] => some []
  | c0 :: c1 :: c2 :: c3 :: rest =>
    match b64val c0, b64val c1 with
    | some v0, some v1 =>
      if c2 = 61 then
        if c3 = 61 ∧ rest = [] then some [(v0 * 4 + v1 / 16) % 256] else none
      else
        match b64val c2 with
        | some v2 =>
          if c3 = 61 then
            if rest = [] then
              some [(v0 * 4 + v1 / 16) % 256, (v1 % 16 * 16 + v2 / 4) % 256]
            else none
          else
            match b64val c3 with
            | some v3 =>
              (decB64 rest).map (fun bs =>
                (v0 * 4 + v1 / 16) % 256 :: (v1 % 16 * 16 + v2 / 4) % 256 ::
                (v2 % 4 * 64 + v3) % 256 :: bs)
            | none => none
        | none => none
    | _, _ => none
  | _ => none

/-- Symbol values (5-bit) of Go's base32 encoder: quanta of five bytes to
eight symbols, with the partial-quantum shapes of the encoder's switch. -/
def encB32v : List Nat → List Nat
  | [] => []
  | [b0] => [b0 / 8, b0 % 8 * 4]
  | [b0, b1] => [b0 / 8, b0 % 8 * 4 + b1 / 64, b1 / 2 % 32, b1 % 2 * 16]
  | [b0, b1, b2] =>
    [b0 / 8, b0 % 8 * 4 + b1 / 64, b1 / 2 % 32, b1 % 2 * 16 + b2 / 16, b2 % 16 * 2]
  | [b0, b1, b2, b3] =>
    [b0 / 8, b0 % 8 * 4 + b1 / 64, b1 / 2 % 32, b1 % 2 * 16 + b2 / 16,
     b2 % 16 * 2 + b3 / 128, b3 / 4 % 32, b3 % 4 * 8]
  | b0 :: b1 :: b2 :: b3 :: b4 :: rest =>
    b0 / 8 :: (b0 % 8 * 4 + b1 / 64) :: b1 / 2 % 32 :: (b1 % 2 * 16 + b2 / 16) ::
    (b2 % 16 * 2 + b3 / 128) :: b3 / 4 % 32 :: (b3 % 4 * 8 + b4 / 32) :: b4 % 32 :: encB32v rest

/-- base32.StdEncoding.WithPadding(NoPadding).EncodeToString. -/
def encB32 (bs : List Nat) : Str := (encB32v bs).map b32chr

/-- Byte-packing step of Go's base32 decoder on already mapped 5-bit
values: final partial quanta of 2, 4, 5 or 7 symbols produce 1, 2, 3 or 4
bytes with surplus bits discarded; lengths 1, 3 and 6 mod 8 are corrupt. -/
def decB32v : List Nat → Option (List Nat)
  | [] => some []
  | [v0, v1] => some [(v0 * 8 + v1 / 4) % 256]
  | [v0, v1, v2, v3] =>
    some [(v0 * 8 + v1 / 4) % 256, (v1 * 64 + v2 * 2 + v3 / 16) % 256]
  | [v0, v1, v2, v3, v4] =>
    some [(v0 * 8 + v1 / 4) % 256, (v1 * 64 + v2 * 2 + v3 / 16) % 256,
          (v3 * 16 + v4 / 2) % 256]
  | [v0, v1, v2, v3, v4, v5, v6] =>
    some [(v0 * 8 + v1 / 4) % 256, (v1 * 64 + v2 * 2 + v3 / 16) % 256,
          (v3 * 16 + v4 / 2) % 256, (v4 * 128 + v5 * 4 + v6 / 8) % 256]
  | v0 :: v1 :: v2 :: v3 :: v4 :: v5 :: v6 :: v7 :: rest =>
    (decB32v rest).map (fun bs =>
      (v0 * 8 + v1 / 4) % 256 :: (v1 * 64 + v2 * 2 + v3 / 16) % 256 ::
      (v3 * 16 + v4 / 2) % 256 :: (v4 * 128 + v5 * 4 + v6 / 8) % 256 ::
      (v6 * 32 + v7) % 256 :: bs)
  | [_] => none
  | [_, _, _] => none
  | [_, _, _, _, _, _] => none

/-- base32.StdEncoding.WithPadding(NoPadding).DecodeString. -/
def decB32 (s : Str) : Option (List Nat) := (mapVals b32val s).bind decB32v

/-- Plugin dnsLabelToPubkey (coredns-plugin, encoding file): uppercase,
decode base32, re-encode base64.  Returns none exactly when Go errors. -/
def dnsLabelToPubkey (label : Str) : Option Str := (decB32 (upStr label)).map encB64

/-- Plugin pubkeyToDnsLabel: decode base64, re-encode lowercase base32. -/
def pubkeyToDnsLabel (pubkey : Str) : Option Str :=
  (decB64 pubkey).map (fun bs => loStr (encB32 bs))

/-- valonctl LabelToPubkey (pkg/encoding): like the plugin's conversion
but rejecting the empty label. -/
def labelToPubkey (label : Str) : Option Str :=
  if label = [] then none else (decB32 (upStr label)).map encB64

/-- valonctl PubkeyToLabel: rejects the empty string and keys that do not
decode to exactly 32 bytes. -/
def pubkeyToLabel (pk : Str) : Option Str :=
  if pk = [] then none
  else (decB64 pk).bind
    (fun bs => if bs.length = 32 then some (loStr (encB32 bs)) else none)

/-- Result of valonctl DetectFormat. -/
inductive Format where
  | base64 : Format
  | base32 : Format
  | unknown : Format
deriving DecidableEq

/-- valonctl DetectFormat: a plus, slash, or equals byte means base64;
otherwise length 52 means base32. -/
def detectFormat (input : Str) : Format :=
  if input = [] then Format.unknown
  else if input.any (fun b => b = 43 ∨ b = 47 ∨ b = 61) then Format.base64
  else if input.length = 52 then Format.base32
  else Format.unknown

/-- valonctl NormalizePubkey: canonicalize either encoding to base64. -/
def normalizePubkey (input : Str) : Option Str :=
  if input = [] then none
  else
    match detectFormat input with
    | Format.base64 =>
      match decB64 input with
      | some bs => if bs.length = 32 then some input else none
      | none => none
    | Format.base32 => labelToPubkey input
    | Format.unknown => none

example : encB64 [0, 0, 0] = str "AAAA" := by decide
example : decB64 (str "AAAA") = some [0, 0, 0] := by decide
example : encB32 [0] = str "AA" := by decide
example : dnsLabelToPubkey (str "alice") = some (str "AtAi") := by decide

/-! Models of the net and strconv stdlib routines the daemon calls. -/

/-- Decimal digit bytes. -/
def isDigit (b : Nat) : Bool := 48 ≤ b && b ≤ 57

/-- Value of a nonempty all-digit byte string. -/
def digitsVal (s : Str) : Option Nat :=
  if s ≠ [] ∧ s.all isDigit then some (s.foldl (fun a b => a * 10 + (b - 48)) 0) else none

/-- strconv.Atoi: optional sign then decimal digits (overflow bound elided). -/
def goAtoi (s : Str) : Option Int :=
  match s with
  | 43 :: rest => (digitsVal rest).map Int.ofNat
  | 45 :: rest => (digitsVal rest).map (fun n => -(Int.ofNat n))
  | _ => (digitsVal s).map Int.ofNat

/-- Conversion to uint16, as Go's uint16(port) cast. -/
def toU16 (i : Int) : Nat := (i % 65536).toNat

/-- Port number the SRV handler derives from a port byte string: Atoi with
the error ignored, leaving 0, then a uint16 cast. -/
def srvPort (ps : Str) : Nat :=
  match goAtoi ps with
  | some i => toU16 i
  | none => 0

/-- Index of the last occurrence of byte b. -/
def lastIdxOf (s : Str) (b : Nat) : Option Nat :=
  match s.reverse.findIdx? (fun x => x == b) with
  | some j => some (s.length - 1 - j)
  | none => none

/-- net.SplitHostPort for non-bracketed addresses: split at the last colon,
no further colon allowed in the host (byte 58 is the colon, 91 and 93 the
brackets of the unsupported IPv6 form). -/
def splitHostPort (s : Str) : Option (Str × Str) :=
  if s.contains 91 ∨ s.contains 93 then none
  else
    match lastIdxOf s 58 with
    | none => none
    | some i =>
      let host := s.take i
      if host.contains 58 then none else some (host, s.drop (i + 1))

/-- One dotted-quad field: one to three digits, no leading zero, at most 255. -/
def ipField (f : Str) : Option Nat :=
  if f ≠ [] ∧ f.length ≤ 3 ∧ f.all isDigit ∧ (1 < f.length → f.headD 0 ≠ 48) then
    let v := f.foldl (fun a b => a * 10 + (b - 48)) 0
    if v ≤ 255 then some v else none
  else none

/-- net.ParseIP restricted to dotted IPv4 literals (byte 46 is the dot);
returns the four octets. -/
def parseIPv4 (s : Str) : Option (List Nat) :=
  match s.splitOn 46 with
  | [a, b, c, d] =>
    match ipField a, ipField b, ipField c, ipField d with
    | some x, some y, some z, some w => some [x, y, z, w]
    | _, _, _, _ => none
  | _ => none

/-- strings.TrimSuffix. -/
def trimSfx (s sfx : Str) : Str :=
  if isSfx sfx s then s.take (s.length - sfx.length) else s

/-- strings.TrimPrefix. -/
def trimPfx (s pfx : Str) : Str :=
  if isPfx pfx s then s.drop pfx.length else s

/-- strings.TrimSpace on ASCII data. -/
def trimSpace (s : Str) : Str :=
  let sp := fun b => b = 32 ∨ b = 9 ∨ b = 10 ∨ b = 13
  ((s.dropWhile (fun b => decide (sp b))).reverse.dropWhile (fun b => decide (sp b))).reverse

/-- strings.Index: first occurrence of a pattern as a contiguous substring. -/
def firstOcc : Str → Str → Option Nat
  | s, pat =>
    if isPfx pat s then some 0
    else
      match s with
      | [] => none
      | _ :: t => (firstOcc t pat).map (· + 1)

/-! Data model: the peer cache and the etcd key-value store. -/

/-- Cached information about one WireGuard peer (cache source file). -/
structure PeerInfo where
  pubKey : Str
  wgIP : Str
  lanEndpoint : Str
  natEndpoint : Str
  lastHandshake : Nat
  updatedAt : Nat
  dirty : Bool
deriving DecidableEq

/-- Zero-valued PeerInfo as Go composite literals leave absent fields. -/
def PeerInfo.zero (pk : Str) : PeerInfo :=
  { pubKey := pk, wgIP := [], lanEndpoint := [], natEndpoint := [],
    lastHandshake := 0, updatedAt := 0, dirty := false }

/-- The in-memory peer cache: a map from base64 public key to PeerInfo. -/
abbrev Cache := List (Str × PeerInfo)

/-- The etcd store: a map from key to value. -/
abbrev Kv := List (Str × Str)

/-- Map insertion: replace the binding if the key is present, else append. -/
def assocSet {β : Type} (k : Str) (v : β) : List (Str × β) → List (Str × β)
  | [] => [(k, v)]
  | (k0, v0) :: rest => if k0 = k then (k, v) :: rest else (k0, v0) :: assocSet k v rest

/-- Map lookup. -/
def assocGet {β : Type} (m : List (Str × β)) (k : Str) : Option β :=
  (m.find? (fun e => e.1 == k)).map (fun e => e.2)

/-- PeerCache.Get. -/
def cacheGet (c : Cache) (k : Str) : Option PeerInfo := assocGet c k

/-- PeerCache.Set: stamps UpdatedAt, then stores. -/
def cacheSet (c : Cache) (k : Str) (i : PeerInfo) (now : Nat) : Cache :=
  assocSet k { i with updatedAt := now } c

/-- PeerCache.Update: when the entry exists, apply the mutator, then stamp
UpdatedAt and set dirty (the source sets dirty unconditionally after the
mutator runs); when absent, do nothing. -/
def cacheUpdate (c : Cache) (k : Str) (fn : PeerInfo → PeerInfo) (now : Nat) : Cache :=
  match cacheGet c k with
  | none => c
  | some p => assocSet k { fn p with updatedAt := now, dirty := true } c

/-- PeerCache.Delete. -/
def cacheDelete (c : Cache) (k : Str) : Cache := c.filter (fun e => !(e.1 == k))

/-- etcd Get of a single key. -/
def kvGet (kv : Kv) (k : Str) : Option Str := assocGet kv k

/-- etcd Put. -/
def kvPut (kv : Kv) (k v : Str) : Kv := assocSet k v kv

/-- etcd Delete of a single key (no prefix option). -/
def kvDelete (kv : Kv) (k : Str) : Kv := kv.filter (fun e => !(e.1 == k))

/-- etcd Get with WithPrefix. -/
def kvRange (kv : Kv) (pfx : Str) : Kv := kv.filter (fun e => isPfx pfx e.1)

/-- Combined mutable daemon state the handlers touch. -/
structure DaemonState where
  cache : Cache
  kv : Kv
deriving DecidableEq

/-! The DDNS HTTP API (ddns source file). -/

/-- Decoded body of POST /api/endpoint. -/
structure EndpointReq where
  pubKey : Str
  lanEndpoint : Str
  aliasName : Str
deriving DecidableEq

/-- An HTTP request as the handlers observe it; body none models a JSON
decoding failure. -/
structure HttpReq where
  method : Str
  body : Option EndpointReq
  xff : Str
  remoteAddr : Str

/-- Status code and success flag of the JSON response. -/
structure HttpResp where
  status : Nat
  success : Bool
deriving DecidableEq

/-- extractClientIP: X-Forwarded-For first (cut at the first comma when it
is not at position zero, byte 44), else the host part of RemoteAddr. -/
def extractClientIP (xff remoteAddr : Str) : Str :=
  if xff ≠ [] then
    match xff.findIdx? (fun b => b == 44) with
    | some i => if 0 < i then xff.take i else xff
    | none => xff
  else
    match splitHostPort remoteAddr with
    | some hp => hp.1
    | none => remoteAddr

/-- isAuthorized: the Discovery Role itself, or the peer whose cached WgIP
equals the client IP. -/
def isAuthorized (selfWgIP : Str) (c : Cache) (clientIP targetPubKey : Str) : Bool :=
  clientIP == selfWgIP ||
    (match cacheGet c targetPubKey with
     | some p => p.wgIP == clientIP
     | none => false)

/-- The lan_endpoint mutation handleEndpointUpdate installs through
PeerCache.Update (the closure also stamps UpdatedAt, which the Update
wrapper overwrites with the same clock value). -/
def endpointMutator (req : EndpointReq) (p : PeerInfo) : PeerInfo :=
  let p1 := { p with pubKey := req.pubKey }
  if p1.lanEndpoint ≠ req.lanEndpoint then
    { p1 with
      lanEndpoint :=
        if req.lanEndpoint = str "0.0.0.0:0" ∨ req.lanEndpoint = [] then [] else req.lanEndpoint,
      dirty := true }
  else p1

/-- handleEndpointUpdate: POST /api/endpoint (etcd writes modelled as
succeeding; on a Put error Go only logs and still answers success). -/
def handleEndpointUpdate (selfWgIP : Str) (st : DaemonState) (r : HttpReq) (now : Nat) :
    HttpResp × DaemonState :=
  if r.method ≠ str "POST" then ({ status := 405, success := false }, st)
  else
    match r.body with
    | none => ({ status := 400, success := false }, st)
    | some req =>
      if req.pubKey = [] then ({ status := 400, success := false }, st)
      else
        let clientIP := extractClientIP r.xff r.remoteAddr
        if ¬ isAuthorized selfWgIP st.cache clientIP req.pubKey then
          ({ status := 403, success := false }, st)
        else if req.lanEndpoint ≠ [] ∧ req.lanEndpoint ≠ str "0.0.0.0:0" ∧
                (splitHostPort req.lanEndpoint).isNone then
          ({ status := 400, success := false }, st)
        else
          let cache1 := cacheUpdate st.cache req.pubKey (endpointMutator req) now
          let kv1 :=
            if req.aliasName ≠ [] then
              match pubkeyToDnsLabel req.pubKey with
              | none => st.kv
              | some _ =>
                kvPut (kvPut st.kv (str "/valon/aliases/" ++ req.aliasName) req.pubKey)
                  (str "/valon/peers/" ++ req.pubKey ++ str "/alias") req.aliasName
            else st.kv
          ({ status := 200, success := true }, { cache := cache1, kv := kv1 })

/-- handleEndpointDelete: POST or DELETE /api/endpoint/delete.  It removes
the cache entry and deletes the single etcd key /valon/aliases/(pubkey). -/
def handleEndpointDelete (selfWgIP : Str) (st : DaemonState) (method : Str)
    (body : Option Str) (xff remoteAddr : Str) : HttpResp × DaemonState :=
  if method ≠ str "DELETE" ∧ method ≠ str "POST" then ({ status := 405, success := false }, st)
  else
    match body with
    | none => ({ status := 400, success := false }, st)
    | some pk =>
      if pk = [] then ({ status := 400, success := false }, st)
      else if extractClientIP xff remoteAddr ≠ selfWgIP then
        ({ status := 403, success := false }, st)
      else
        ({ status := 200, success := true },
         { cache := cacheDelete st.cache pk,
           kv := kvDelete st.kv (str "/valon/aliases/" ++ pk) })

/-! The DNS handler (handler source file, cache-backed version). -/

/-- Resource records the handler can emit. -/
inductive RR where
  | a : Str → List Nat → RR
  | srv : Str → Nat → Nat → Nat → Str → RR
  | cname : Str → Str → RR
deriving DecidableEq

/-- Answer and additional sections plus the rcode (0 success, 3 NXDOMAIN). -/
structure DnsMsg where
  rcode : Nat
  answers : List RR
  extras : List RR
deriving DecidableEq

/-- The NXDOMAIN reply. -/
def nxdomainMsg : DnsMsg := { rcode := 3, answers := [], extras := [] }

/-- lookupAlias: read /valon/aliases/(alias) from etcd, trimming spaces;
empty when absent (or on an etcd error, which only yields the empty
result as well). -/
def lookupAlias (kv : Kv) (aliasName : Str) : Str :=
  match kvGet kv (str "/valon/aliases/" ++ aliasName) with
  | some v => trimSpace v
  | none => []

/-- returnCNAME: emit the CNAME to (targetLabel).(zone) and, when the
target label decodes and names a cached peer with a parseable WgIP, that
target's A record in the same answer section. -/
def returnCNAME (zone : Str) (c : Cache) (qname targetLabel : Str) : DnsMsg :=
  let targetFQDN := targetLabel ++ str "." ++ zone
  let base : DnsMsg := { rcode := 0, answers := [RR.cname qname targetFQDN], extras := [] }
  match dnsLabelToPubkey targetLabel with
  | none => base
  | some pk =>
    match cacheGet c pk with
    | none => base
    | some p =>
      if p.wgIP = [] then base
      else
        match parseIPv4 p.wgIP with
        | some ip => { base with answers := base.answers ++ [RR.a targetFQDN ip] }
        | none => base

/-- handleA on a query name already known to end in the zone. -/
def handleA (zone : Str) (c : Cache) (kv : Kv) (qname : Str) : DnsMsg :=
  let name := trimSfx (trimSfx qname zone) (str ".")
  let parts : Str × Bool × Bool :=
    if isPfx (str "lan.") name then (trimPfx name (str "lan."), true, true)
    else if isPfx (str "nated.") name then (trimPfx name (str "nated."), true, false)
    else (name, false, false)
  let dnsLabel := parts.1
  let isEp := parts.2.1
  let epLAN := parts.2.2
  match dnsLabelToPubkey dnsLabel with
  | none =>
    if ¬ isEp then
      let t := lookupAlias kv dnsLabel
      if t ≠ [] then returnCNAME zone c qname t else nxdomainMsg
    else nxdomainMsg
  | some pk =>
    match cacheGet c pk with
    | none => nxdomainMsg
    | some p =>
      let value := if isEp then (if epLAN then p.lanEndpoint else p.natEndpoint) else p.wgIP
      if value = [] then nxdomainMsg
      else
        let hostOpt := if isEp then (splitHostPort value).map (fun hp => hp.1) else some value
        match hostOpt with
        | none => nxdomainMsg
        | some host =>
          match parseIPv4 host with
          | none => nxdomainMsg
          | some ip => { rcode := 0, answers := [RR.a qname ip], extras := [] }

/-- Additional-section A record for one SRV target, present when the host
parses as an IPv4 address. -/
def aPart (target host : Str) : List RR :=
  match parseIPv4 host with
  | some ip => [RR.a target ip]
  | none => []

/-- SRV answer and additional records for one endpoint of one peer. -/
def srvPart (zone qname dnsLabel : Str) (pfxName : String) (prio : Nat) (endpoint : Str) :
    List RR × List RR :=
  if endpoint ≠ [] then
    match splitHostPort endpoint with
    | some hp =>
      let target := str pfxName ++ dnsLabel ++ str "." ++ zone
      ([RR.srv qname prio 0 (srvPort hp.2) target], aPart target hp.1)
    | none => ([], [])
  else ([], [])

/-- handleSRV on a query name already known to end in the zone. -/
def handleSRV (zone : Str) (c : Cache) (qname : Str) : DnsMsg :=
  let name := trimSfx (trimSfx qname zone) (str ".")
  if ¬ isPfx (str "_wireguard._udp.") name then nxdomainMsg
  else
    let dnsLabel := trimPfx name (str "_wireguard._udp.")
    match dnsLabelToPubkey dnsLabel with
    | none => nxdomainMsg
    | some pk =>
      match cacheGet c pk with
      | none => nxdomainMsg
      | some p =>
        let lan := srvPart zone qname dnsLabel "lan." 0 p.lanEndpoint
        let nat := srvPart zone qname dnsLabel "nated." 10 p.natEndpoint
        let answers := lan.1 ++ nat.1
        if answers = [] then nxdomainMsg
        else { rcode := 0, answers := answers, extras := lan.2 ++ nat.2 }

/-! The KV syncer (wg_monitor companion source file). -/

/-- writePeerToEtcd: the transaction's Put operations for one peer. -/
def writePeerToEtcd (kv : Kv) (pk : Str) (p : PeerInfo) : Kv :=
  let kv1 := if p.wgIP ≠ [] then kvPut kv (str "/valon/peers/" ++ pk ++ str "/wg_ip") p.wgIP else kv
  let kv2 :=
    if p.lanEndpoint ≠ [] then
      kvPut kv1 (str "/valon/peers/" ++ pk ++ str "/endpoints/lan") p.lanEndpoint
    else kv1
  if p.natEndpoint ≠ [] then
    kvPut kv2 (str "/valon/peers/" ++ pk ++ str "/endpoints/nated") p.natEndpoint
  else kv2

/-- syncToEtcd: snapshot the cache, and for every dirty entry whose
transaction succeeds (txnOk), write its fields and run the dirty-clearing
cache.Update.  Entries whose transaction fails are left alone. -/
def syncToEtcd (st : DaemonState) (txnOk : Str → Bool) (now : Nat) : DaemonState :=
  st.cache.foldl
    (fun acc e =>
      if e.2.dirty then
        if txnOk e.1 then
          { cache := cacheUpdate acc.cache e.1 (fun q => { q with dirty := false }) now,
            kv := writePeerToEtcd acc.kv e.1 e.2 }
        else acc
      else acc)
    st

/-! The startup KV loader (newer plugin main source file). -/

/-- Locate the public key inside one row key relative to /valon/peers/ by
searching for the first known field marker, exactly as the loader's
if-chain does; yields the key and the field path after it. -/
def loaderSplitRow (relKey : Str) : Option (Str × Str) :=
  match firstOcc relKey (str "/wg_ip") with
  | some i => some (relKey.take i, relKey.drop (i + 1))
  | none =>
    match firstOcc relKey (str "/alias") with
    | some i => some (relKey.take i, relKey.drop (i + 1))
    | none =>
      match firstOcc relKey (str "/endpoints/") with
      | some i => some (relKey.take i, relKey.drop (i + 1))
      | none => none

/-- Apply one field row to the grouped PeerInfo under construction. -/
def loaderApplyField (p : PeerInfo) (fieldPath value : Str) : PeerInfo :=
  match fieldPath.splitOn 47 with
  | f0 :: rest =>
    if f0 = str "wg_ip" then { p with wgIP := value }
    else if f0 = str "endpoints" then
      match rest with
      | f1 :: _ =>
        if f1 = str "lan" then { p with lanEndpoint := value }
        else if f1 = str "nated" then { p with natEndpoint := value }
        else p
      | [] => p
    else p
  | [] => p

/-- loadFromEtcd: range over /valon/peers/, group rows by the located
public key (creating the group before the field switch runs, as the
source does), then Set every group into a fresh cache. -/
def loadFromEtcd (kv : Kv) (now : Nat) : Cache :=
  let rows := kvRange kv (str "/valon/peers/")
  let groups : List (Str × PeerInfo) :=
    rows.foldl
      (fun acc row =>
        match loaderSplitRow (trimPfx row.1 (str "/valon/peers/")) with
        | none => acc
        | some pf =>
          let cur :=
            match assocGet acc pf.1 with
            | some p => p
            | none => PeerInfo.zero pf.1
          assocSet pf.1 (loaderApplyField cur pf.2 row.2) acc)
      []
  groups.foldl (fun c e => cacheSet c e.1 e.2 now) []

/-! Concrete data used by the claim theorems: the all-zero 32-byte key,
its two encodings, and a peer record with both endpoints set. -/

/-- The served zone. -/
def zoneEx : Str := str "valon.internal."

/-- Base64 form of the 32-byte all-zero public key. -/
def keyZ : Str := str "AAAAAAAAAAAAAAAAAAAAAAAAAAAAAAAAAAAAAAAAAAA="

/-- Base32 label of the all-zero key. -/
def labelZ : Str := str "aaaaaaaaaaaaaaaaaaaaaaaaaaaaaaaaaaaaaaaaaaaaaaaaaaaa"

/-- A 52-character label that decodes (Go drops the trailing bits) but is
not the canonical encoding of its decoded bytes. -/
def labelB : Str := str "aaaaaaaaaaaaaaaaaaaaaaaaaaaaaaaaaaaaaaaaaaaaaaaaaaab"

/-- A valid 32-byte base64 key that contains the marker /alias inside. -/
def keyC8 : Str := str "Ab/aliasAb/aliasAb/aliasAb/aliasAb/aliasAbc="

/-- A cached peer with overlay IP and both endpoints known. -/
def peerEx : PeerInfo :=
  { pubKey := keyZ, wgIP := str "100.64.0.5", lanEndpoint := str "192.168.1.7:51820",
    natEndpoint := str "203.0.113.9:41820", lastHandshake := 0, updatedAt := 0, dirty := false }

example : dnsLabelToPubkey labelZ = some keyZ := by decide
example : pubkeyToDnsLabel keyZ = some labelZ := by decide

/-! Claim C1. -/

/-- The C1 start state: one cached peer whose dirty flag is set. -/
def stC1 : DaemonState :=
  { cache := [(keyZ, { peerEx with dirty := true })], kv := [] }

/-- C1: the claim says a successful etcd transaction leaves the peer's
dirty flag false at the end of the KV-syncer tick.  Evaluating the code
at a one-peer dirty cache whose transaction succeeds: the fields are
written to etcd, yet the dirty flag is still true afterwards, because
PeerCache.Update re-sets dirty after running the clearing mutator. -/
theorem c1_sync_keeps_dirty :
    kvGet (syncToEtcd stC1 (fun _ => true) 5).kv
        (str "/valon/peers/" ++ keyZ ++ str "/wg_ip") = some (str "100.64.0.5") ∧
    (cacheGet (syncToEtcd stC1 (fun _ => true) 5).cache keyZ).map PeerInfo.dirty = some true := by
  decide

/-! Claim C2. -/

/-- The C2 start state: the peer is cached, no alias registered yet. -/
def stC2 : DaemonState := { cache := [(keyZ, peerEx)], kv := [] }

/-- Registration request carrying the alias alice. -/
def regC2a : EndpointReq :=
  { pubKey := keyZ, lanEndpoint := str "192.168.1.7:51820", aliasName := str "alice" }

/-- Registration request carrying the alias alice-macbook. -/
def regC2b : EndpointReq :=
  { pubKey := keyZ, lanEndpoint := str "192.168.1.7:51820", aliasName := str "alice-macbook" }

/-- The HTTP request registering an alias from the peer's own overlay IP. -/
def regReq (body : EndpointReq) : HttpReq :=
  { method := str "POST", body := some body, xff := [], remoteAddr := str "100.64.0.5:40000" }

/-- C2: the claim says an A query for a registered alias returns a CNAME
to the base32 re-encoding of the stored key plus that target's A record.
Evaluating the code: registering alias alice succeeds and stores the
base64 key, but the A query for alice.(zone) answers NXDOMAIN, because
alice itself parses as base32 and the alias branch is never reached; and
for alias alice-macbook (which does not parse) the CNAME's target is the
raw base64 key glued to the zone, with no A record, because returnCNAME
never re-encodes the stored key to a base32 label. -/
theorem c2_alias_cname_broken :
    (handleEndpointUpdate (str "100.64.0.1") stC2 (regReq regC2a) 3).1 =
      { status := 200, success := true } ∧
    kvGet (handleEndpointUpdate (str "100.64.0.1") stC2 (regReq regC2a) 3).2.kv
      (str "/valon/aliases/alice") = some keyZ ∧
    handleA zoneEx (handleEndpointUpdate (str "100.64.0.1") stC2 (regReq regC2a) 3).2.cache
      (handleEndpointUpdate (str "100.64.0.1") stC2 (regReq regC2a) 3).2.kv
      (str "alice.valon.internal.") = nxdomainMsg ∧
    handleA zoneEx (handleEndpointUpdate (str "100.64.0.1") stC2 (regReq regC2b) 3).2.cache
      (handleEndpointUpdate (str "100.64.0.1") stC2 (regReq regC2b) 3).2.kv
      (str "alice-macbook.valon.internal.") =
      { rcode := 0,
        answers := [RR.cname (str "alice-macbook.valon.internal.") (keyZ ++ str "." ++ zoneEx)],
        extras := [] } := by
  decide

/-! Claim C3. -/

/-- A request whose lan_endpoint has no colon at all. -/
def reqC3 : EndpointReq := { pubKey := keyZ, lanEndpoint := str "garbage", aliasName := [] }

/-- C3 counterexample: the claim's left-to-right reading fails because a
request whose source IP is the daemon's own overlay IP is still rejected
(400, not accepted) when its lan_endpoint does not parse as host:port. -/
theorem c3_counterexample :
    extractClientIP [] (str "100.64.0.1:41000") = str "100.64.0.1" ∧
    (handleEndpointUpdate (str "100.64.0.1") { cache := [(keyZ, peerEx)], kv := [] }
        { method := str "POST", body := some reqC3, xff := [],
          remoteAddr := str "100.64.0.1:41000" } 7).1 =
      { status := 400, success := false } := by
  decide

/-! Claim C4. -/

/-- The C4 etcd contents: the peer's field row and its alias row. -/
def kvC4 : Kv :=
  [(str "/valon/peers/" ++ keyZ ++ str "/wg_ip", str "100.64.0.5"),
   (str "/valon/aliases/alice-macbook", keyZ)]

/-- C4: the claim says an authorized delete removes the /valon/peers/(k)/
subtree and the /valon/aliases/(alias) row.  Evaluating the code: the
cache entry goes away, but the peer's etcd subtree row and the alias row
both survive, because the handler deletes only the single key
/valon/aliases/(pubkey), which names no row at all. -/
theorem c4_delete_leaves_kv_rows :
    (handleEndpointDelete (str "100.64.0.1") { cache := [(keyZ, peerEx)], kv := kvC4 }
        (str "POST") (some keyZ) [] (str "100.64.0.1:9000")).1 =
      { status := 200, success := true } ∧
    (handleEndpointDelete (str "100.64.0.1") { cache := [(keyZ, peerEx)], kv := kvC4 }
        (str "POST") (some keyZ) [] (str "100.64.0.1:9000")).2.cache = [] ∧
    kvGet (handleEndpointDelete (str "100.64.0.1") { cache := [(keyZ, peerEx)], kv := kvC4 }
        (str "POST") (some keyZ) [] (str "100.64.0.1:9000")).2.kv
      (str "/valon/peers/" ++ keyZ ++ str "/wg_ip") = some (str "100.64.0.5") ∧
    kvGet (handleEndpointDelete (str "100.64.0.1") { cache := [(keyZ, peerEx)], kv := kvC4 }
        (str "POST") (some keyZ) [] (str "100.64.0.1:9000")).2.kv
      (str "/valon/aliases/alice-macbook") = some keyZ := by
  decide

/-! Claim C5, counterexample part. -/

/-- C5 counterexample: labelB is a valid 52-character base32 label in the
decoder's sense (Go accepts it, dropping the nonzero trailing bits), yet
converting it to a key and back yields the canonical label, not
labelB.lower() = labelB. -/
theorem c5_counterexample :
    labelToPubkey labelB = some keyZ ∧ pubkeyToLabel keyZ = some labelZ ∧
    loStr labelB = labelB ∧ labelZ ≠ labelB := by
  decide

/-! Claim C6, counterexample part. -/

/-- A cached peer whose lan_endpoint is non-empty but not host:port. -/
def peerC6 : PeerInfo := { peerEx with lanEndpoint := str "garbage", natEndpoint := [] }

/-- C6 counterexample: the claim says the response carries a priority-0
SRV record exactly when lan_endpoint is non-empty, and is NXDOMAIN exactly
when neither endpoint is set.  With a non-empty but unparseable
lan_endpoint the code answers NXDOMAIN. -/
theorem c6_counterexample :
    peerC6.lanEndpoint ≠ [] ∧
    handleSRV zoneEx [(keyZ, peerC6)]
      (str "_wireguard._udp." ++ labelZ ++ str "." ++ zoneEx) = nxdomainMsg := by
  decide

/-! Claim C7, counterexample part. -/

/-- A cached peer whose NAT endpoint is non-empty but not host:port. -/
def peerC7 : PeerInfo := { peerEx with natEndpoint := str "noport" }

/-- The offline report. -/
def reqC7 : EndpointReq := { pubKey := keyZ, lanEndpoint := str "0.0.0.0:0", aliasName := [] }

/-- C7 counterexample: the claim says that after the offline update the
SRV response still emits the priority-10 NAT record whenever nat_endpoint
is non-empty.  With a non-empty but unparseable nat_endpoint the code
answers NXDOMAIN instead. -/
theorem c7_counterexample :
    (cacheGet (handleEndpointUpdate (str "100.64.0.1") { cache := [(keyZ, peerC7)], kv := [] }
        { method := str "POST", body := some reqC7, xff := [],
          remoteAddr := str "100.64.0.1:41000" } 9).2.cache keyZ).map PeerInfo.natEndpoint =
      some (str "noport") ∧
    handleSRV zoneEx (handleEndpointUpdate (str "100.64.0.1") { cache := [(keyZ, peerC7)], kv := [] }
        { method := str "POST", body := some reqC7, xff := [],
          remoteAddr := str "100.64.0.1:41000" } 9).2.cache
      (str "_wireguard._udp." ++ labelZ ++ str "." ++ zoneEx) = nxdomainMsg := by
  decide

/-! Claim C8, counterexample part. -/

/-- The C8 etcd contents: the wg_ip and alias rows of the single peer
keyC8, whose base64 key contains the byte sequence /alias. -/
def kvC8 : Kv :=
  [(str "/valon/peers/" ++ keyC8 ++ str "/alias", str "alice-macbook"),
   (str "/valon/peers/" ++ keyC8 ++ str "/wg_ip", str "100.64.0.5")]

/-- C8 counterexample: keyC8 is a genuine 32-byte base64 key containing
a slash, and all rows in the store belong to that one peer, yet the
loader produces two cache entries: the real one and a spurious entry
keyed Ab, because the first occurrence of the /alias marker in the alias
row lies inside the key. -/
theorem c8_counterexample :
    (decB64 keyC8).map List.length = some 32 ∧
    (loadFromEtcd kvC8 0).length = 2 ∧
    (cacheGet (loadFromEtcd kvC8 0) (str "Ab")).isSome = true ∧
    (cacheGet (loadFromEtcd kvC8 0) keyC8).map PeerInfo.wgIP = some (str "100.64.0.5") := by
  decide

/-! Codec lemmas: the Go encoders and decoders round-trip on byte data. -/

theorem b64val_b64chr (v : Nat) (h : v < 64) : b64val (b64chr v) = some v := by
  revert v h; decide

theorem b32val_b32chr (v : Nat) (h : v < 32) : b32val (b32chr v) = some v := by
  revert v h; decide

theorem b64chr_ne_pad (v : Nat) (h : v < 64) : b64chr v ≠ 61 := by
  revert v h; decide

theorem decB64_quad (v0 v1 v2 v3 : Nat) (rest : Str)
    (h0 : v0 < 64) (h1 : v1 < 64) (h2 : v2 < 64) (h3 : v3 < 64) :
    decB64 (b64chr v0 :: b64chr v1 :: b64chr v2 :: b64chr v3 :: rest) =
      (decB64 rest).map (fun bs =>
        (v0 * 4 + v1 / 16) % 256 :: (v1 % 16 * 16 + v2 / 4) % 256 ::
        (v2 % 4 * 64 + v3) % 256 :: bs) := by
  simp [decB64, b64val_b64chr _ h0, b64val_b64chr _ h1, b64val_b64chr _ h2,
    b64val_b64chr _ h3, b64chr_ne_pad _ h2, b64chr_ne_pad _ h3]

theorem decB64_encB64 : ∀ bs : List Nat, (∀ x ∈ bs, x < 256) → decB64 (encB64 bs) = some bs := by
  intro bs
  induction bs using encB64.induct with
  | case1 => intro _; rfl
  | case2 b0 =>
    intro h
    have hb0 : b0 < 256 := h b0 (by simp)
    simp [encB64, decB64, b64val_b64chr (b0 / 4) (by omega),
      b64val_b64chr (b0 % 4 * 16) (by omega)]
    omega
  | case3 b0 b1 =>
    intro h
    have hb0 : b0 < 256 := h b0 (by simp)
    have hb1 : b1 < 256 := h b1 (by simp)
    simp [encB64, decB64, b64val_b64chr (b0 / 4) (by omega),
      b64val_b64chr (b0 % 4 * 16 + b1 / 16) (by omega),
      b64val_b64chr (b1 % 16 * 4) (by omega),
      b64chr_ne_pad (b0 % 4 * 16 + b1 / 16) (by omega),
      b64chr_ne_pad (b1 % 16 * 4) (by omega)]
    omega
  | case4 b0 b1 b2 rest ih =>
    intro h
    have hb0 : b0 < 256 := h b0 (by simp)
    have hb1 : b1 < 256 := h b1 (by simp)
    have hb2 : b2 < 256 := h b2 (by simp)
    have hrest : ∀ x ∈ rest, x < 256 := fun x hx => h x (by simp [hx])
    simp only [encB64]
    rw [decB64_quad _ _ _ _ _ (by omega) (by omega) (by omega) (by omega), ih hrest]
    simp
    omega

theorem encB32v_lt : ∀ bs : List Nat, (∀ x ∈ bs, x < 256) → ∀ v ∈ encB32v bs, v < 32 := by
  intro bs
  induction bs using encB32v.induct with
  | case1 => intro _ v hv; simp [encB32v] at hv
  | case2 b0 =>
    intro h v hv
    have hb0 : b0 < 256 := h b0 (by simp)
    simp [encB32v] at hv
    rcases hv with h1 | h1 <;> omega
  | case3 b0 b1 =>
    intro h v hv
    have hb0 : b0 < 256 := h b0 (by simp)
    have hb1 : b1 < 256 := h b1 (by simp)
    simp [encB32v] at hv
    rcases hv with h1 | h1 | h1 | h1 <;> omega
  | case4 b0 b1 b2 =>
    intro h v hv
    have hb0 : b0 < 256 := h b0 (by simp)
    have hb1 : b1 < 256 := h b1 (by simp)
    have hb2 : b2 < 256 := h b2 (by simp)
    simp [encB32v] at hv
    rcases hv with h1 | h1 | h1 | h1 | h1 <;> omega
  | case5 b0 b1 b2 b3 =>
    intro h v hv
    have hb0 : b0 < 256 := h b0 (by simp)
    have hb1 : b1 < 256 := h b1 (by simp)
    have hb2 : b2 < 256 := h b2 (by simp)
    have hb3 : b3 < 256 := h b3 (by simp)
    simp [encB32v] at hv
    rcases hv with h1 | h1 | h1 | h1 | h1 | h1 | h1 <;> omega
  | case6 b0 b1 b2 b3 b4 rest ih =>
    intro h v hv
    have hb0 : b0 < 256 := h b0 (by simp)
    have hb1 : b1 < 256 := h b1 (by simp)
    have hb2 : b2 < 256 := h b2 (by simp)
    have hb3 : b3 < 256 := h b3 (by simp)
    have hb4 : b4 < 256 := h b4 (by simp)
    have hrest : ∀ x ∈ rest, x < 256 := fun x hx => h x (by simp [hx])
    simp [encB32v] at hv
    rcases hv with h1 | h1 | h1 | h1 | h1 | h1 | h1 | h1 | h1
    all_goals first
      | omega
      | exact ih hrest v h1

theorem mapVals_map_b32chr : ∀ vs : List Nat, (∀ v ∈ vs, v < 32) →
    mapVals b32val (vs.map b32chr) = some vs := by
  intro vs
  induction vs with
  | nil => intro _; rfl
  | cons v t ih =>
    intro h
    have hv : v < 32 := h v (by simp)
    have ht : ∀ x ∈ t, x < 32 := fun x hx => h x (by simp [hx])
    simp [mapVals, b32val_b32chr v hv, ih ht]

theorem decB32v_encB32v : ∀ bs : List Nat, (∀ x ∈ bs, x < 256) →
    decB32v (encB32v bs) = some bs := by
  intro bs
  induction bs using encB32v.induct with
  | case1 => intro _; rfl
  | case2 b0 =>
    intro h
    have hb0 : b0 < 256 := h b0 (by simp)
    simp [encB32v, decB32v]
    omega
  | case3 b0 b1 =>
    intro h
    have hb0 : b0 < 256 := h b0 (by simp)
    have hb1 : b1 < 256 := h b1 (by simp)
    simp [encB32v, decB32v]
    omega
  | case4 b0 b1 b2 =>
    intro h
    have hb0 : b0 < 256 := h b0 (by simp)
    have hb1 : b1 < 256 := h b1 (by simp)
    have hb2 : b2 < 256 := h b2 (by simp)
    simp [encB32v, decB32v]
    omega
  | case5 b0 b1 b2 b3 =>
    intro h
    have hb0 : b0 < 256 := h b0 (by simp)
    have hb1 : b1 < 256 := h b1 (by simp)
    have hb2 : b2 < 256 := h b2 (by simp)
    have hb3 : b3 < 256 := h b3 (by simp)
    simp [encB32v, decB32v]
    omega
  | case6 b0 b1 b2 b3 b4 rest ih =>
    intro h
    have hb0 : b0 < 256 := h b0 (by simp)
    have hb1 : b1 < 256 := h b1 (by simp)
    have hb2 : b2 < 256 := h b2 (by simp)
    have hb3 : b3 < 256 := h b3 (by simp)
    have hb4 : b4 < 256 := h b4 (by simp)
    have hrest : ∀ x ∈ rest, x < 256 := fun x hx => h x (by simp [hx])
    simp [encB32v, decB32v, ih hrest]
    omega

theorem decB32_encB32 (bs : List Nat) (h : ∀ x ∈ bs, x < 256) :
    decB32 (encB32 bs) = some bs := by
  unfold decB32 encB32
  rw [mapVals_map_b32chr (encB32v bs) (encB32v_lt bs h)]
  exact decB32v_encB32v bs h

theorem upByte_loByte_b32chr (v : Nat) (h : v < 32) : upByte (loByte (b32chr v)) = b32chr v := by
  revert v h; decide

theorem upStr_loStr_encB32 (bs : List Nat) (h : ∀ x ∈ bs, x < 256) :
    upStr (loStr (encB32 bs)) = encB32 bs := by
  unfold upStr loStr encB32
  rw [List.map_map, List.map_map]
  apply List.map_congr_left
  intro v hv
  exact upByte_loByte_b32chr v (encB32v_lt bs h v hv)

theorem loByte_upByte (b : Nat) : loByte (upByte b) = loByte b := by
  unfold upByte loByte
  repeat' split
  all_goals omega

theorem encB64_ne_nil (bs : List Nat) (h : bs ≠ []) : encB64 bs ≠ [] := by
  match bs with
  | [] => exact absurd rfl h
  | [b0] => simp [encB64]
  | [b0, b1] => simp [encB64]
  | b0 :: b1 :: b2 :: rest => simp [encB64]

theorem pad_mem_encB64 : ∀ bs : List Nat, bs.length % 3 = 2 → 61 ∈ encB64 bs := by
  intro bs
  induction bs using encB64.induct with
  | case1 => intro h; simp at h
  | case2 b0 => intro h; simp at h
  | case3 b0 b1 => intro _; simp [encB64]
  | case4 b0 b1 b2 rest ih =>
    intro h
    have : rest.length % 3 = 2 := by simp at h; omega
    simp [encB64, ih this]

theorem mapVals_length : ∀ (f : Nat → Option Nat) (s : Str) (vs : List Nat),
    mapVals f s = some vs → vs.length = s.length := by
  intro f s
  induction s with
  | nil => intro vs h; simp [mapVals] at h; simp [← h]
  | cons c t ih =>
    intro vs h
    simp only [mapVals] at h
    cases hfc : f c with
    | none => rw [hfc] at h; exact absurd h (by simp)
    | some v =>
      rw [hfc] at h
      cases hmt : mapVals f t with
      | none => rw [hmt] at h; exact absurd h (by simp)
      | some ws =>
        rw [hmt] at h
        simp at h
        subst h
        simp [ih ws hmt]

theorem mapVals_isSome_forall : ∀ (f : Nat → Option Nat) (s : Str),
    (mapVals f s).isSome = true → ∀ c ∈ s, (f c).isSome = true := by
  intro f s
  induction s with
  | nil => intro _ c hc; simp at hc
  | cons a t ih =>
    intro h c hc
    simp only [mapVals] at h
    cases hfa : f a with
    | none => rw [hfa] at h; simp at h
    | some v =>
      rw [hfa] at h
      cases hmt : mapVals f t with
      | none => rw [hmt] at h; simp at h
      | some ws =>
        rcases List.mem_cons.mp hc with rfl | hct
        · simp [hfa]
        · exact ih (by simp [hmt]) c hct

theorem decB32v_length : ∀ (vs : List Nat) (bs : List Nat),
    decB32v vs = some bs → bs.length = vs.length * 5 / 8 := by
  intro vs
  induction vs using decB32v.induct with
  | case1 => intro bs h; simp [decB32v] at h; subst h; rfl
  | case2 v0 v1 => intro bs h; simp [decB32v] at h; subst h; simp
  | case3 v0 v1 v2 v3 => intro bs h; simp [decB32v] at h; subst h; simp
  | case4 v0 v1 v2 v3 v4 => intro bs h; simp [decB32v] at h; subst h; simp
  | case5 v0 v1 v2 v3 v4 v5 v6 => intro bs h; simp [decB32v] at h; subst h; simp
  | case6 v0 v1 v2 v3 v4 v5 v6 v7 rest ih =>
    intro bs h
    simp only [decB32v] at h
    cases hr : decB32v rest with
    | none => rw [hr] at h; exact absurd h (by simp)
    | some tail =>
      rw [hr] at h
      simp at h
      subst h
      have := ih tail hr
      simp only [List.length_cons, this]
      omega
  | case7 v0 => intro bs h; simp [decB32v] at h
  | case8 v0 v1 v2 => intro bs h; simp [decB32v] at h
  | case9 v0 v1 v2 v3 v4 v5 => intro bs h; simp [decB32v] at h

theorem decB32v_lt : ∀ (vs : List Nat) (bs : List Nat),
    decB32v vs = some bs → ∀ x ∈ bs, x < 256 := by
  intro vs
  induction vs using decB32v.induct with
  | case1 => intro bs h x hx; simp [decB32v] at h; subst h; simp at hx
  | case2 v0 v1 =>
    intro bs h x hx; simp [decB32v] at h; subst h; simp at hx; omega
  | case3 v0 v1 v2 v3 =>
    intro bs h x hx; simp [decB32v] at h; subst h; simp at hx
    rcases hx with h1 | h1 <;> omega
  | case4 v0 v1 v2 v3 v4 =>
    intro bs h x hx; simp [decB32v] at h; subst h; simp at hx
    rcases hx with h1 | h1 | h1 <;> omega
  | case5 v0 v1 v2 v3 v4 v5 v6 =>
    intro bs h x hx; simp [decB32v] at h; subst h; simp at hx
    rcases hx with h1 | h1 | h1 | h1 <;> omega
  | case6 v0 v1 v2 v3 v4 v5 v6 v7 rest ih =>
    intro bs h x hx
    simp only [decB32v] at h
    cases hr : decB32v rest with
    | none => rw [hr] at h; exact absurd h (by simp)
    | some tail =>
      rw [hr] at h
      simp at h
      subst h
      simp at hx
      rcases hx with h1 | h1 | h1 | h1 | h1 | h1
      · omega
      · omega
      · omega
      · omega
      · omega
      · exact ih tail hr x h1
  | case7 v0 => intro bs h; simp [decB32v] at h
  | case8 v0 v1 v2 => intro bs h; simp [decB32v] at h
  | case9 v0 v1 v2 v3 v4 v5 => intro bs h; simp [decB32v] at h

theorem encB32v_ne_nil (bs : List Nat) (h : bs ≠ []) : encB32v bs ≠ [] := by
  match bs with
  | [] => exact absurd rfl h
  | [b0] => simp [encB32v]
  | [b0, b1] => simp [encB32v]
  | [b0, b1, b2] => simp [encB32v]
  | [b0, b1, b2, b3] => simp [encB32v]
  | b0 :: b1 :: b2 :: b3 :: b4 :: rest => simp [encB32v]

theorem loStr_encB32_ne_nil (bs : List Nat) (h : bs ≠ []) : loStr (encB32 bs) ≠ [] := by
  unfold loStr encB32
  simp only [ne_eq, List.map_eq_nil_iff]
  exact encB32v_ne_nil bs h

/-! Claim C5, amended part. -/

/-- C5 amended: the two round-trip identities hold for canonical data.
First: for every 32-byte key (given as the base64 encoding of its bytes),
label_to_key (key_to_label k) = k.  Second: for every 52-character label
that is, up to ASCII case, the base32 encoding of some 32-byte key,
key_to_label (label_to_key l) = l.lower().  (The unamended claim fails on
decodable labels with nonzero trailing bits, see the counterexample.) -/
theorem c5_amended :
    (∀ bs : List Nat, bs.length = 32 → (∀ x ∈ bs, x < 256) →
      (pubkeyToLabel (encB64 bs)).bind labelToPubkey = some (encB64 bs)) ∧
    (∀ (bs : List Nat) (l : Str), bs.length = 32 → (∀ x ∈ bs, x < 256) →
      upStr l = encB32 bs → (labelToPubkey l).bind pubkeyToLabel = some (loStr l)) := by
  constructor
  · intro bs hlen hb
    have hbs : bs ≠ [] := by intro h; rw [h] at hlen; simp at hlen
    have h1 : pubkeyToLabel (encB64 bs) = some (loStr (encB32 bs)) := by
      unfold pubkeyToLabel
      rw [if_neg (encB64_ne_nil bs hbs), decB64_encB64 bs hb]
      simp [hlen]
    rw [h1, Option.some_bind]
    unfold labelToPubkey
    rw [if_neg (loStr_encB32_ne_nil bs hbs), upStr_loStr_encB32 bs hb, decB32_encB32 bs hb]
    rfl
  · intro bs l hlen hb hl
    have hbs : bs ≠ [] := by intro h; rw [h] at hlen; simp at hlen
    have hlne : l ≠ [] := by
      intro h
      subst h
      simp only [upStr, List.map_nil] at hl
      unfold encB32 at hl
      exact encB32v_ne_nil bs hbs (List.map_eq_nil_iff.mp hl.symm)
    unfold labelToPubkey
    rw [if_neg hlne, hl, decB32_encB32 bs hb]
    unfold pubkeyToLabel
    simp only [Option.map_some', Option.some_bind]
    rw [if_neg (encB64_ne_nil bs hbs), decB64_encB64 bs hb]
    simp only [Option.some_bind, hlen, if_pos, Option.some.injEq]
    rw [← hl]
    unfold loStr upStr
    rw [List.map_map]
    exact List.map_congr_left (fun b _ => loByte_upByte b)

/-- Witness for the amended C5 at the all-zero key and its label. -/
theorem c5_amended_witness :
    (pubkeyToLabel (encB64 (List.replicate 32 0))).bind labelToPubkey =
      some (encB64 (List.replicate 32 0)) ∧
    (labelToPubkey labelZ).bind pubkeyToLabel = some (loStr labelZ) :=
  ⟨c5_amended.1 (List.replicate 32 0) (by decide) (by decide),
   c5_amended.2 (List.replicate 32 0) labelZ (by decide) (by decide) (by decide)⟩

/-! Claim C9. -/

theorem normalizePubkey_encB64 (bs : List Nat) (hlen : bs.length = 32)
    (hb : ∀ x ∈ bs, x < 256) : normalizePubkey (encB64 bs) = some (encB64 bs) := by
  have hne : encB64 bs ≠ [] :=
    encB64_ne_nil bs (by intro h; rw [h] at hlen; simp at hlen)
  have hmem : 61 ∈ encB64 bs := pad_mem_encB64 bs (by rw [hlen])
  have hany : (encB64 bs).any (fun b => decide (b = 43 ∨ b = 47 ∨ b = 61)) = true :=
    List.any_eq_true.mpr ⟨61, hmem, by decide⟩
  have hdet : detectFormat (encB64 bs) = Format.base64 := by
    unfold detectFormat
    rw [if_neg hne, if_pos hany]
  unfold normalizePubkey
  rw [if_neg hne, hdet, decB64_encB64 bs hb]
  simp [hlen]

/-- C9: normalize is idempotent on every valid input of either encoding:
a 44-character base64 key (the encoding of 32 bytes) is returned as is,
and a 52-character decodable base32 label normalizes to a base64 key that
then normalizes to itself. -/
theorem c9_normalize_idempotent (x : Str)
    (hvalid : (∃ bs, bs.length = 32 ∧ (∀ v ∈ bs, v < 256) ∧ x = encB64 bs) ∨
              (x.length = 52 ∧ (decB32 (upStr x)).isSome = true)) :
    ∃ y, normalizePubkey x = some y ∧ normalizePubkey y = some y := by
  rcases hvalid with ⟨bs, hlen, hb, rfl⟩ | ⟨h52, hsome⟩
  · exact ⟨encB64 bs, normalizePubkey_encB64 bs hlen hb, normalizePubkey_encB64 bs hlen hb⟩
  · cases hdec : decB32 (upStr x) with
    | none => rw [hdec] at hsome; simp at hsome
    | some bs0 =>
      obtain ⟨vs, hmv, hdv⟩ := Option.bind_eq_some.mp hdec
      have hvslen : vs.length = 52 := by
        have := mapVals_length b32val (upStr x) vs hmv
        unfold upStr at this
        simp [this, h52]
      have hbs0len : bs0.length = 32 := by
        have := decB32v_length vs bs0 hdv
        rw [hvslen] at this
        omega
      have hbs0lt : ∀ v ∈ bs0, v < 256 := decB32v_lt vs bs0 hdv
      have hxne : x ≠ [] := by intro h; rw [h] at h52; simp at h52
      have hchars : ∀ c ∈ x, c ≠ 43 ∧ c ≠ 47 ∧ c ≠ 61 := by
        intro c hc
        have hcs : (b32val (upByte c)).isSome = true := by
          apply mapVals_isSome_forall b32val (upStr x) (by simp [hmv])
          exact List.mem_map_of_mem upByte hc
        refine ⟨?_, ?_, ?_⟩ <;> rintro rfl <;> simp [upByte, b32val, b32alpha, str] at hcs
      have hanyf : (x.any (fun b => decide (b = 43 ∨ b = 47 ∨ b = 61))) = false := by
        simp only [List.any_eq_false, decide_eq_true_eq]
        intro c hc
        have h3 := hchars c hc
        tauto
      have hdet : detectFormat x = Format.base32 := by
        unfold detectFormat
        rw [if_neg hxne, if_neg (by rw [hanyf]; simp), if_pos h52]
      refine ⟨encB64 bs0, ?_, normalizePubkey_encB64 bs0 hbs0len hbs0lt⟩
      unfold normalizePubkey
      rw [if_neg hxne, hdet]
      show labelToPubkey x = some (encB64 bs0)
      unfold labelToPubkey
      rw [if_neg hxne, hdec]
      rfl

/-- Witness for C9 at the all-zero key in base64 form. -/
theorem c9_witness :
    ∃ y, normalizePubkey keyZ = some y ∧ normalizePubkey y = some y :=
  c9_normalize_idempotent keyZ
    (Or.inl ⟨List.replicate 32 0, by decide, by decide, by decide⟩)

/-! Authorization characterization and the update handler's branches. -/

theorem isAuthorized_eq_true_iff (selfIP : Str) (c : Cache) (cip pk : Str) :
    isAuthorized selfIP c cip pk = true ↔
      (cip = selfIP ∨ ∃ p, cacheGet c pk = some p ∧ p.wgIP = cip) := by
  unfold isAuthorized
  cases h : cacheGet c pk <;> simp [h]

theorem lanOk_not_rejected (e : Str)
    (h : e = [] ∨ e = str "0.0.0.0:0" ∨ (splitHostPort e).isSome = true) :
    ¬ (¬ e = [] ∧ ¬ e = str "0.0.0.0:0" ∧ splitHostPort e = none) := by
  rcases h with rfl | rfl | h3
  · simp
  · simp
  · rintro ⟨h1, h2, h4⟩
    rw [h4] at h3
    simp at h3

/-! Claim C10. -/

/-- C10: a well-formed POST /api/endpoint from the daemon's own overlay IP
whose pubkey has no cache entry is answered 200 success, yet the cache is
unchanged: PeerCache.Update is a silent no-op for absent keys. -/
theorem c10_update_silent_noop (selfIP : Str) (st : DaemonState) (req : EndpointReq)
    (xff remote : Str) (now : Nat)
    (hpk : req.pubKey ≠ [])
    (habsent : cacheGet st.cache req.pubKey = none)
    (hself : extractClientIP xff remote = selfIP)
    (hlan : req.lanEndpoint = [] ∨ req.lanEndpoint = str "0.0.0.0:0" ∨
      (splitHostPort req.lanEndpoint).isSome = true) :
    (handleEndpointUpdate selfIP st
        { method := str "POST", body := some req, xff := xff, remoteAddr := remote } now).1 =
      { status := 200, success := true } ∧
    (handleEndpointUpdate selfIP st
        { method := str "POST", body := some req, xff := xff, remoteAddr := remote } now).2.cache =
      st.cache := by
  have hauth : isAuthorized selfIP st.cache (extractClientIP xff remote) req.pubKey = true := by
    rw [isAuthorized_eq_true_iff]
    exact Or.inl hself
  have hcache : cacheUpdate st.cache req.pubKey (endpointMutator req) now = st.cache := by
    unfold cacheUpdate
    rw [habsent]
  unfold handleEndpointUpdate
  simp [hpk, hauth, hcache, lanOk_not_rejected req.lanEndpoint hlan]

/-- Witness for C10: empty cache, valid pubkey, request from the daemon. -/
theorem c10_witness :
    (handleEndpointUpdate (str "100.64.0.1") { cache := [], kv := [] }
        { method := str "POST",
          body := some { pubKey := str "Xk=", lanEndpoint := [], aliasName := [] },
          xff := [], remoteAddr := str "100.64.0.1:5000" } 1).1 =
      { status := 200, success := true } ∧
    (handleEndpointUpdate (str "100.64.0.1") { cache := [], kv := [] }
        { method := str "POST",
          body := some { pubKey := str "Xk=", lanEndpoint := [], aliasName := [] },
          xff := [], remoteAddr := str "100.64.0.1:5000" } 1).2.cache =
      DaemonState.cache { cache := [], kv := [] } :=
  c10_update_silent_noop (str "100.64.0.1") { cache := [], kv := [] }
    { pubKey := str "Xk=", lanEndpoint := [], aliasName := [] }
    [] (str "100.64.0.1:5000") 1 (by decide) (by decide) (by decide) (Or.inl rfl)

/-! Claim C3, amended part. -/

/-- C3 amended: among POST /api/endpoint requests with well-formed JSON,
a non-empty pubkey and a lan_endpoint that is empty, the offline sentinel
or parseable host:port, the request is accepted (200) exactly when the
extracted client IP (X-Forwarded-For first, else the RemoteAddr host)
equals the daemon's own overlay IP or the cached overlay IP of the peer
named by the pubkey; every other such request is answered 403 with the
cache entry and the KV store unchanged.  (As stated the claim also fails
for authorized requests with malformed lan_endpoint, which get 400, see
the counterexample.) -/
theorem c3_amended (selfIP : Str) (st : DaemonState) (req : EndpointReq)
    (xff remote : Str) (now : Nat)
    (hpk : req.pubKey ≠ [])
    (hlan : req.lanEndpoint = [] ∨ req.lanEndpoint = str "0.0.0.0:0" ∨
      (splitHostPort req.lanEndpoint).isSome = true) :
    ((handleEndpointUpdate selfIP st
        { method := str "POST", body := some req, xff := xff, remoteAddr := remote } now).1 =
        { status := 200, success := true } ↔
      (extractClientIP xff remote = selfIP ∨
        ∃ p, cacheGet st.cache req.pubKey = some p ∧ p.wgIP = extractClientIP xff remote)) ∧
    (¬ (extractClientIP xff remote = selfIP ∨
        ∃ p, cacheGet st.cache req.pubKey = some p ∧ p.wgIP = extractClientIP xff remote) →
      (handleEndpointUpdate selfIP st
          { method := str "POST", body := some req, xff := xff, remoteAddr := remote } now).1 =
        { status := 403, success := false } ∧
      (handleEndpointUpdate selfIP st
          { method := str "POST", body := some req, xff := xff, remoteAddr := remote } now).2 =
        st) := by
  by_cases hauth : isAuthorized selfIP st.cache (extractClientIP xff remote) req.pubKey = true
  · have hprop := (isAuthorized_eq_true_iff selfIP st.cache
      (extractClientIP xff remote) req.pubKey).mp hauth
    constructor
    · unfold handleEndpointUpdate
      simp [hpk, hauth, lanOk_not_rejected req.lanEndpoint hlan, hprop]
    · intro hno
      exact absurd hprop hno
  · have hprop : ¬ (extractClientIP xff remote = selfIP ∨
        ∃ p, cacheGet st.cache req.pubKey = some p ∧ p.wgIP = extractClientIP xff remote) :=
      fun hp => hauth ((isAuthorized_eq_true_iff selfIP st.cache
        (extractClientIP xff remote) req.pubKey).mpr hp)
    constructor
    · unfold handleEndpointUpdate
      simp [hpk, hauth, hprop]
    · intro _
      unfold handleEndpointUpdate
      simp [hpk, hauth]

/-- A well-formed update request used by the amended C3 witness. -/
def reqC3v : EndpointReq :=
  { pubKey := keyZ, lanEndpoint := str "192.168.1.7:51820", aliasName := [] }

/-- Witness for the amended C3: an unauthorized source receives 403 and
changes nothing. -/
theorem c3_amended_witness :
    ((handleEndpointUpdate (str "100.64.0.1") { cache := [(keyZ, peerEx)], kv := [] }
        { method := str "POST", body := some reqC3v, xff := [],
          remoteAddr := str "198.51.100.4:700" } 2).1 =
        { status := 200, success := true } ↔
      (extractClientIP [] (str "198.51.100.4:700") = str "100.64.0.1" ∨
        ∃ p, cacheGet (DaemonState.cache { cache := [(keyZ, peerEx)], kv := [] }) reqC3v.pubKey =
            some p ∧ p.wgIP = extractClientIP [] (str "198.51.100.4:700"))) ∧
    (¬ (extractClientIP [] (str "198.51.100.4:700") = str "100.64.0.1" ∨
        ∃ p, cacheGet (DaemonState.cache { cache := [(keyZ, peerEx)], kv := [] }) reqC3v.pubKey =
            some p ∧ p.wgIP = extractClientIP [] (str "198.51.100.4:700")) →
      (handleEndpointUpdate (str "100.64.0.1") { cache := [(keyZ, peerEx)], kv := [] }
          { method := str "POST", body := some reqC3v, xff := [],
            remoteAddr := str "198.51.100.4:700" } 2).1 =
        { status := 403, success := false } ∧
      (handleEndpointUpdate (str "100.64.0.1") { cache := [(keyZ, peerEx)], kv := [] }
          { method := str "POST", body := some reqC3v, xff := [],
            remoteAddr := str "198.51.100.4:700" } 2).2 =
        { cache := [(keyZ, peerEx)], kv := [] }) :=
  c3_amended (str "100.64.0.1") { cache := [(keyZ, peerEx)], kv := [] } reqC3v []
    (str "198.51.100.4:700") 2 (by decide)
    (Or.inr (Or.inr (by decide)))

/-! String lemmas for the DNS name plumbing. -/

theorem isPfx_append_self : ∀ a b : Str, isPfx a (a ++ b) = true := by
  intro a b
  induction a with
  | nil => rfl
  | cons x t ih => simp [isPfx, ih]

theorem trimPfx_append (a b : Str) : trimPfx (a ++ b) a = b := by
  unfold trimPfx
  rw [if_pos (isPfx_append_self a b)]
  exact List.drop_left a b

theorem trimSfx_append (a b : Str) : trimSfx (a ++ b) b = a := by
  have hcond : isSfx b (a ++ b) = true := by
    unfold isSfx
    simp [List.length_append, List.drop_left]
  unfold trimSfx
  rw [if_pos hcond]
  simp [List.length_append, List.take_left]

/-- Reduction of handleSRV on a well-formed SRV query naming a cached peer. -/
theorem handleSRV_cached (zone : Str) (c : Cache) (l pk : Str) (p : PeerInfo)
    (hl : dnsLabelToPubkey l = some pk) (hp : cacheGet c pk = some p) :
    handleSRV zone c (str "_wireguard._udp." ++ l ++ str "." ++ zone) =
      (if (srvPart zone (str "_wireguard._udp." ++ l ++ str "." ++ zone) l "lan." 0
            p.lanEndpoint).1 ++
          (srvPart zone (str "_wireguard._udp." ++ l ++ str "." ++ zone) l "nated." 10
            p.natEndpoint).1 = [] then
        nxdomainMsg
       else
        { rcode := 0,
          answers :=
            (srvPart zone (str "_wireguard._udp." ++ l ++ str "." ++ zone) l "lan." 0
              p.lanEndpoint).1 ++
            (srvPart zone (str "_wireguard._udp." ++ l ++ str "." ++ zone) l "nated." 10
              p.natEndpoint).1,
          extras :=
            (srvPart zone (str "_wireguard._udp." ++ l ++ str "." ++ zone) l "lan." 0
              p.lanEndpoint).2 ++
            (srvPart zone (str "_wireguard._udp." ++ l ++ str "." ++ zone) l "nated." 10
              p.natEndpoint).2 }) := by
  unfold handleSRV
  have h1 : trimSfx (str "_wireguard._udp." ++ l ++ str "." ++ zone) zone =
      str "_wireguard._udp." ++ l ++ str "." := trimSfx_append _ zone
  have h2 : trimSfx (str "_wireguard._udp." ++ l ++ str ".") (str ".") =
      str "_wireguard._udp." ++ l := trimSfx_append _ (str ".")
  rw [h1, h2, if_neg (by rw [isPfx_append_self]; simp), trimPfx_append]
  simp only [hl, hp]

/-- An A record taken from one endpoint's additional-section piece is
named by that endpoint's SRV target. -/
theorem mem_aPart (target n : Str) (ip : List Nat) (h : Str)
    (hm : RR.a n ip ∈ aPart target h) : n = target := by
  unfold aPart at hm
  cases hq : parseIPv4 h <;> rw [hq] at hm <;> simp at hm
  exact hm.1

theorem srvPart_empty (zone qn dl : Str) (pf : String) (prio : Nat) :
    srvPart zone qn dl pf prio [] = ([], []) := by
  simp [srvPart]

theorem srvPart_nosplit (zone qn dl : Str) (pf : String) (prio : Nat) (e : Str)
    (h : splitHostPort e = none) : srvPart zone qn dl pf prio e = ([], []) := by
  by_cases he : e = [] <;> simp [srvPart, he, h]

theorem srvPart_split (zone qn dl : Str) (pf : String) (prio : Nat) (e : Str)
    (hpr : Str × Str) (he : e ≠ []) (h : splitHostPort e = some hpr) :
    srvPart zone qn dl pf prio e =
      ([RR.srv qn prio 0 (srvPort hpr.2) (str pf ++ dl ++ str "." ++ zone)],
       aPart (str pf ++ dl ++ str "." ++ zone) hpr.1) := by
  simp [srvPart, he, h]

/-! Claim C6, amended part. -/

/-- C6 amended: for an SRV query naming a cached peer, the answer has the
priority-0 record targeting lan.(label).(zone) exactly when lan_endpoint
is non-empty AND parses as host:port, the priority-10 record targeting
nated.(label).(zone) exactly when nat_endpoint is non-empty and parses,
every additional-section A record is named by the target of one of the
emitted SRV records, and the response is NXDOMAIN exactly when no SRV
record was emitted.  (The unamended claim, keyed on non-emptiness alone,
fails for unparseable endpoints, see the counterexample.) -/
theorem c6_amended (zone : Str) (c : Cache) (l pk : Str) (p : PeerInfo)
    (hl : dnsLabelToPubkey l = some pk)
    (hp : cacheGet c pk = some p) :
    ((∃ port, RR.srv (str "_wireguard._udp." ++ l ++ str "." ++ zone) 0 0 port
        (str "lan." ++ l ++ str "." ++ zone) ∈
        (handleSRV zone c (str "_wireguard._udp." ++ l ++ str "." ++ zone)).answers) ↔
      p.lanEndpoint ≠ [] ∧ (splitHostPort p.lanEndpoint).isSome = true) ∧
    ((∃ port, RR.srv (str "_wireguard._udp." ++ l ++ str "." ++ zone) 10 0 port
        (str "nated." ++ l ++ str "." ++ zone) ∈
        (handleSRV zone c (str "_wireguard._udp." ++ l ++ str "." ++ zone)).answers) ↔
      p.natEndpoint ≠ [] ∧ (splitHostPort p.natEndpoint).isSome = true) ∧
    (∀ n ip, RR.a n ip ∈
        (handleSRV zone c (str "_wireguard._udp." ++ l ++ str "." ++ zone)).extras →
      ∃ pr w port, RR.srv (str "_wireguard._udp." ++ l ++ str "." ++ zone) pr w port n ∈
        (handleSRV zone c (str "_wireguard._udp." ++ l ++ str "." ++ zone)).answers) ∧
    ((handleSRV zone c (str "_wireguard._udp." ++ l ++ str "." ++ zone)).rcode = 3 ↔
      ¬ ((p.lanEndpoint ≠ [] ∧ (splitHostPort p.lanEndpoint).isSome = true) ∨
         (p.natEndpoint ≠ [] ∧ (splitHostPort p.natEndpoint).isSome = true))) := by
  have hred := handleSRV_cached zone c l pk p hl hp
  by_cases hL : p.lanEndpoint = []
  · have eL := srvPart_empty zone (str "_wireguard._udp." ++ l ++ str "." ++ zone) l "lan." 0
    rw [hL] at hred
    by_cases hN : p.natEndpoint = []
    · have eN := srvPart_empty zone (str "_wireguard._udp." ++ l ++ str "." ++ zone) l "nated." 10
      rw [hN] at hred
      rw [eL, eN] at hred
      simp only [hred]
      simp [nxdomainMsg, hL, hN]
    · cases hNs : splitHostPort p.natEndpoint with
      | none =>
        have eN := srvPart_nosplit zone (str "_wireguard._udp." ++ l ++ str "." ++ zone) l
          "nated." 10 p.natEndpoint hNs
        rw [eL, eN] at hred
        simp only [hred]
        simp [nxdomainMsg, hL, hN, hNs]
      | some np =>
        have eN := srvPart_split zone (str "_wireguard._udp." ++ l ++ str "." ++ zone) l
          "nated." 10 p.natEndpoint np hN hNs
        rw [eL, eN] at hred
        simp only [hred]
        refine ⟨by simp [hL], ?_, ?_, by simp [hN, hNs]⟩
        · simp only [List.nil_append, DnsMsg.answers]
          constructor
          · intro _; exact ⟨hN, by simp [hNs]⟩
          · intro _; exact ⟨srvPort np.2, by simp⟩
        · intro n ip hm
          simp only [List.nil_append, DnsMsg.extras] at hm
          have := mem_aPart (str "nated." ++ l ++ str "." ++ zone) n ip np.1 hm
          subst this
          exact ⟨10, 0, srvPort np.2, by simp⟩
  · cases hLs : splitHostPort p.lanEndpoint with
    | none =>
      have eL := srvPart_nosplit zone (str "_wireguard._udp." ++ l ++ str "." ++ zone) l
        "lan." 0 p.lanEndpoint hLs
      rw [eL] at hred
      by_cases hN : p.natEndpoint = []
      · have eN := srvPart_empty zone (str "_wireguard._udp." ++ l ++ str "." ++ zone) l
          "nated." 10
        rw [hN] at hred
        rw [eN] at hred
        simp only [hred]
        simp [nxdomainMsg, hL, hLs, hN]
      · cases hNs : splitHostPort p.natEndpoint with
        | none =>
          have eN := srvPart_nosplit zone (str "_wireguard._udp." ++ l ++ str "." ++ zone) l
            "nated." 10 p.natEndpoint hNs
          rw [eN] at hred
          simp only [hred]
          simp [nxdomainMsg, hL, hLs, hN, hNs]
        | some np =>
          have eN := srvPart_split zone (str "_wireguard._udp." ++ l ++ str "." ++ zone) l
            "nated." 10 p.natEndpoint np hN hNs
          rw [eN] at hred
          simp only [hred]
          refine ⟨by simp [hLs], ?_, ?_, by simp [hLs, hN, hNs]⟩
          · simp only [List.nil_append, DnsMsg.answers]
            constructor
            · intro _; exact ⟨hN, by simp [hNs]⟩
            · intro _; exact ⟨srvPort np.2, by simp⟩
          · intro n ip hm
            simp only [List.nil_append, DnsMsg.extras] at hm
            have := mem_aPart (str "nated." ++ l ++ str "." ++ zone) n ip np.1 hm
            subst this
            exact ⟨10, 0, srvPort np.2, by simp⟩
    | some lp =>
      have eL := srvPart_split zone (str "_wireguard._udp." ++ l ++ str "." ++ zone) l
        "lan." 0 p.lanEndpoint lp hL hLs
      rw [eL] at hred
      by_cases hN : p.natEndpoint = []
      · have eN := srvPart_empty zone (str "_wireguard._udp." ++ l ++ str "." ++ zone) l
          "nated." 10
        rw [hN] at hred
        rw [eN] at hred
        simp only [hred]
        refine ⟨?_, by simp [hN], ?_, by simp [hL, hLs]⟩
        · simp only [List.append_nil, DnsMsg.answers]
          constructor
          · intro _; exact ⟨hL, by simp [hLs]⟩
          · intro _; exact ⟨srvPort lp.2, by simp⟩
        · intro n ip hm
          simp only [List.append_nil, DnsMsg.extras] at hm
          have := mem_aPart (str "lan." ++ l ++ str "." ++ zone) n ip lp.1 hm
          subst this
          exact ⟨0, 0, srvPort lp.2, by simp⟩
      · cases hNs : splitHostPort p.natEndpoint with
        | none =>
          have eN := srvPart_nosplit zone (str "_wireguard._udp." ++ l ++ str "." ++ zone) l
            "nated." 10 p.natEndpoint hNs
          rw [eN] at hred
          simp only [hred]
          refine ⟨?_, by simp [hN, hNs], ?_, by simp [hL, hLs]⟩
          · simp only [List.append_nil, DnsMsg.answers]
            constructor
            · intro _; exact ⟨hL, by simp [hLs]⟩
            · intro _; exact ⟨srvPort lp.2, by simp⟩
          · intro n ip hm
            simp only [List.append_nil, DnsMsg.extras] at hm
            have := mem_aPart (str "lan." ++ l ++ str "." ++ zone) n ip lp.1 hm
            subst this
            exact ⟨0, 0, srvPort lp.2, by simp⟩
        | some np =>
          have eN := srvPart_split zone (str "_wireguard._udp." ++ l ++ str "." ++ zone) l
            "nated." 10 p.natEndpoint np hN hNs
          rw [eN] at hred
          simp only [List.cons_append, List.nil_append] at hred
          rw [if_neg (List.cons_ne_nil _ _)] at hred
          simp only [hred]
          refine ⟨?_, ?_, ?_, by simp [hL, hLs]⟩
          · constructor
            · intro _; exact ⟨hL, by simp [hLs]⟩
            · intro _; exact ⟨srvPort lp.2, by simp⟩
          · constructor
            · intro _; exact ⟨hN, by simp [hNs]⟩
            · intro _; exact ⟨srvPort np.2, by simp⟩
          · intro n ip hm
            rcases List.mem_append.mp hm with h1 | h1
            · have := mem_aPart (str "lan." ++ l ++ str "." ++ zone) n ip lp.1 h1
              subst this
              exact ⟨0, 0, srvPort lp.2, by simp⟩
            · have := mem_aPart (str "nated." ++ l ++ str "." ++ zone) n ip np.1 h1
              subst this
              exact ⟨10, 0, srvPort np.2, by simp⟩

/-- Witness for the amended C6 at a peer with both endpoints parseable. -/
theorem c6_amended_witness :
    ((∃ port, RR.srv (str "_wireguard._udp." ++ labelZ ++ str "." ++ zoneEx) 0 0 port
        (str "lan." ++ labelZ ++ str "." ++ zoneEx) ∈
        (handleSRV zoneEx [(keyZ, peerEx)]
          (str "_wireguard._udp." ++ labelZ ++ str "." ++ zoneEx)).answers) ↔
      peerEx.lanEndpoint ≠ [] ∧ (splitHostPort peerEx.lanEndpoint).isSome = true) ∧
    ((∃ port, RR.srv (str "_wireguard._udp." ++ labelZ ++ str "." ++ zoneEx) 10 0 port
        (str "nated." ++ labelZ ++ str "." ++ zoneEx) ∈
        (handleSRV zoneEx [(keyZ, peerEx)]
          (str "_wireguard._udp." ++ labelZ ++ str "." ++ zoneEx)).answers) ↔
      peerEx.natEndpoint ≠ [] ∧ (splitHostPort peerEx.natEndpoint).isSome = true) ∧
    (∀ n ip, RR.a n ip ∈
        (handleSRV zoneEx [(keyZ, peerEx)]
          (str "_wireguard._udp." ++ labelZ ++ str "." ++ zoneEx)).extras →
      ∃ pr w port, RR.srv (str "_wireguard._udp." ++ labelZ ++ str "." ++ zoneEx) pr w port n ∈
        (handleSRV zoneEx [(keyZ, peerEx)]
          (str "_wireguard._udp." ++ labelZ ++ str "." ++ zoneEx)).answers) ∧
    ((handleSRV zoneEx [(keyZ, peerEx)]
        (str "_wireguard._udp." ++ labelZ ++ str "." ++ zoneEx)).rcode = 3 ↔
      ¬ ((peerEx.lanEndpoint ≠ [] ∧ (splitHostPort peerEx.lanEndpoint).isSome = true) ∨
         (peerEx.natEndpoint ≠ [] ∧ (splitHostPort peerEx.natEndpoint).isSome = true))) :=
  c6_amended zoneEx [(keyZ, peerEx)] labelZ keyZ peerEx (by decide) (by decide)

theorem assocGet_assocSet_self {β : Type} (c : List (Str × β)) (k : Str) (v : β) :
    assocGet (assocSet k v c) k = some v := by
  induction c with
  | nil => simp [assocSet, assocGet]
  | cons e t ih =>
    by_cases he : e.1 = k
    · simp [assocSet, he, assocGet]
    · simp only [assocSet, if_neg he]
      simp only [assocGet, List.find?]
      rw [show (e.1 == k) = false by simp [he]]
      exact ih

/-- Effect of the update handler's mutator for an offline report, when the
stored lan_endpoint is not itself the sentinel. -/
theorem endpointMutator_offline (req : EndpointReq) (p : PeerInfo)
    (hs : req.lanEndpoint = str "0.0.0.0:0" ∨ req.lanEndpoint = [])
    (hn : p.lanEndpoint ≠ str "0.0.0.0:0") :
    (endpointMutator req p).lanEndpoint = [] ∧
    (endpointMutator req p).natEndpoint = p.natEndpoint := by
  rcases hs with hs | hs
  · simp [endpointMutator, hs, hn]
  · by_cases he : p.lanEndpoint = []
    · simp [endpointMutator, hs, he]
    · simp [endpointMutator, hs, he]

/-- Reduction of handleA on a lan query naming a cached peer whose
lan_endpoint is empty: NXDOMAIN. -/
theorem handleA_lan_empty (zone : Str) (c : Cache) (kv : Kv) (l pk : Str) (p : PeerInfo)
    (hl : dnsLabelToPubkey l = some pk) (hp : cacheGet c pk = some p)
    (hlan : p.lanEndpoint = []) :
    handleA zone c kv (str "lan." ++ l ++ str "." ++ zone) = nxdomainMsg := by
  unfold handleA
  have h1 : trimSfx (str "lan." ++ l ++ str "." ++ zone) zone =
      str "lan." ++ l ++ str "." := trimSfx_append _ zone
  have h2 : trimSfx (str "lan." ++ l ++ str ".") (str ".") = str "lan." ++ l :=
    trimSfx_append _ (str ".")
  rw [h1, h2]
  simp only [isPfx_append_self, if_true, trimPfx_append, hl, hp, hlan]

/-! Claim C7, amended part. -/

/-- C7 amended: after an authorized offline report (sentinel or empty
lan_endpoint) for a cached peer whose stored lan_endpoint is not itself
the sentinel, the cached lan_endpoint is empty, the lan A query answers
NXDOMAIN, the SRV answer carries no priority-0 record, and it carries the
priority-10 NAT record exactly when nat_endpoint is non-empty and parses
as host:port.  (The unamended claim, keyed on non-emptiness alone, fails
for unparseable NAT endpoints, see the counterexample.) -/
theorem c7_amended (selfIP zone : Str) (st : DaemonState) (k l : Str) (p : PeerInfo)
    (req : EndpointReq) (xff remote : Str) (now : Nat)
    (hk : k ≠ [])
    (hreq : req.pubKey = k)
    (hsent : req.lanEndpoint = str "0.0.0.0:0" ∨ req.lanEndpoint = [])
    (hl : dnsLabelToPubkey l = some k)
    (hp : cacheGet st.cache k = some p)
    (hnosent : p.lanEndpoint ≠ str "0.0.0.0:0")
    (hauth : isAuthorized selfIP st.cache (extractClientIP xff remote) k = true) :
    (cacheGet (handleEndpointUpdate selfIP st
        { method := str "POST", body := some req, xff := xff, remoteAddr := remote }
        now).2.cache k).map PeerInfo.lanEndpoint = some [] ∧
    handleA zone (handleEndpointUpdate selfIP st
        { method := str "POST", body := some req, xff := xff, remoteAddr := remote }
        now).2.cache
      (handleEndpointUpdate selfIP st
        { method := str "POST", body := some req, xff := xff, remoteAddr := remote }
        now).2.kv
      (str "lan." ++ l ++ str "." ++ zone) = nxdomainMsg ∧
    (∀ port target, RR.srv (str "_wireguard._udp." ++ l ++ str "." ++ zone) 0 0 port target ∉
      (handleSRV zone (handleEndpointUpdate selfIP st
          { method := str "POST", body := some req, xff := xff, remoteAddr := remote }
          now).2.cache
        (str "_wireguard._udp." ++ l ++ str "." ++ zone)).answers) ∧
    ((∃ port, RR.srv (str "_wireguard._udp." ++ l ++ str "." ++ zone) 10 0 port
        (str "nated." ++ l ++ str "." ++ zone) ∈
        (handleSRV zone (handleEndpointUpdate selfIP st
            { method := str "POST", body := some req, xff := xff, remoteAddr := remote }
            now).2.cache
          (str "_wireguard._udp." ++ l ++ str "." ++ zone)).answers) ↔
      p.natEndpoint ≠ [] ∧ (splitHostPort p.natEndpoint).isSome = true) := by
  have hpk : req.pubKey ≠ [] := by rw [hreq]; exact hk
  have hauth' : isAuthorized selfIP st.cache (extractClientIP xff remote) req.pubKey = true := by
    rw [hreq]; exact hauth
  have hlanok : ¬ (¬ req.lanEndpoint = [] ∧ ¬ req.lanEndpoint = str "0.0.0.0:0" ∧
      splitHostPort req.lanEndpoint = none) := by
    rcases hsent with h | h <;> simp [h]
  have hstate : (handleEndpointUpdate selfIP st
      { method := str "POST", body := some req, xff := xff, remoteAddr := remote }
      now).2.cache = cacheUpdate st.cache req.pubKey (endpointMutator req) now := by
    unfold handleEndpointUpdate
    simp [hpk, hauth', hlanok]
  have hc1 : cacheUpdate st.cache req.pubKey (endpointMutator req) now =
      assocSet k { endpointMutator req p with updatedAt := now, dirty := true } st.cache := by
    unfold cacheUpdate
    rw [hreq, hp]
  have hget : cacheGet
      (assocSet k { endpointMutator req p with updatedAt := now, dirty := true } st.cache) k =
      some { endpointMutator req p with updatedAt := now, dirty := true } :=
    assocGet_assocSet_self st.cache k _
  have hm := endpointMutator_offline req p hsent hnosent
  have hlan' : ({ endpointMutator req p with updatedAt := now, dirty := true } :
      PeerInfo).lanEndpoint = [] := by simp [hm.1]
  have hnat' : ({ endpointMutator req p with updatedAt := now, dirty := true } :
      PeerInfo).natEndpoint = p.natEndpoint := by simp [hm.2]
  have hred := handleSRV_cached zone
    (assocSet k { endpointMutator req p with updatedAt := now, dirty := true } st.cache)
    l k { endpointMutator req p with updatedAt := now, dirty := true } hl hget
  rw [hlan', hnat'] at hred
  rw [srvPart_empty] at hred
  refine ⟨?_, ?_, ?_, ?_⟩
  · rw [hstate, hc1, hget]
    simp [hm.1]
  · rw [hstate, hc1]
    exact handleA_lan_empty zone _ _ l k _ hl hget hlan'
  · rw [hstate, hc1]
    intro port target
    by_cases hN : p.natEndpoint = []
    · rw [hN, srvPart_empty] at hred
      simp only [List.nil_append] at hred
      rw [hred]
      simp [nxdomainMsg]
    · cases hNs : splitHostPort p.natEndpoint with
      | none =>
        rw [srvPart_nosplit zone _ l "nated." 10 p.natEndpoint hNs] at hred
        simp only [List.nil_append] at hred
        rw [hred]
        simp [nxdomainMsg]
      | some np =>
        rw [srvPart_split zone _ l "nated." 10 p.natEndpoint np hN hNs] at hred
        simp only [List.nil_append] at hred
        rw [if_neg (List.cons_ne_nil _ _)] at hred
        rw [hred]
        simp
  · rw [hstate, hc1]
    by_cases hN : p.natEndpoint = []
    · rw [hN, srvPart_empty] at hred
      simp only [List.nil_append] at hred
      rw [hred]
      simp [nxdomainMsg, hN]
    · cases hNs : splitHostPort p.natEndpoint with
      | none =>
        rw [srvPart_nosplit zone _ l "nated." 10 p.natEndpoint hNs] at hred
        simp only [List.nil_append] at hred
        rw [hred]
        simp [nxdomainMsg, hNs]
      | some np =>
        rw [srvPart_split zone _ l "nated." 10 p.natEndpoint np hN hNs] at hred
        simp only [List.nil_append] at hred
        rw [if_neg (List.cons_ne_nil _ _)] at hred
        rw [hred]
        constructor
        · intro _; exact ⟨hN, by simp [hNs]⟩
        · intro _; exact ⟨srvPort np.2, by simp⟩

/-- Witness for the amended C7 at a cached peer with a parseable NAT
endpoint receiving the sentinel offline report from the daemon's IP. -/
theorem c7_amended_witness :
    (cacheGet (handleEndpointUpdate (str "100.64.0.1") { cache := [(keyZ, peerEx)], kv := [] }
        { method := str "POST", body := some reqC7, xff := [],
          remoteAddr := str "100.64.0.1:41000" } 9).2.cache keyZ).map PeerInfo.lanEndpoint =
      some [] ∧
    handleA zoneEx (handleEndpointUpdate (str "100.64.0.1") { cache := [(keyZ, peerEx)], kv := [] }
        { method := str "POST", body := some reqC7, xff := [],
          remoteAddr := str "100.64.0.1:41000" } 9).2.cache
      (handleEndpointUpdate (str "100.64.0.1") { cache := [(keyZ, peerEx)], kv := [] }
        { method := str "POST", body := some reqC7, xff := [],
          remoteAddr := str "100.64.0.1:41000" } 9).2.kv
      (str "lan." ++ labelZ ++ str "." ++ zoneEx) = nxdomainMsg ∧
    (∀ port target,
      RR.srv (str "_wireguard._udp." ++ labelZ ++ str "." ++ zoneEx) 0 0 port target ∉
      (handleSRV zoneEx (handleEndpointUpdate (str "100.64.0.1")
          { cache := [(keyZ, peerEx)], kv := [] }
          { method := str "POST", body := some reqC7, xff := [],
            remoteAddr := str "100.64.0.1:41000" } 9).2.cache
        (str "_wireguard._udp." ++ labelZ ++ str "." ++ zoneEx)).answers) ∧
    ((∃ port, RR.srv (str "_wireguard._udp." ++ labelZ ++ str "." ++ zoneEx) 10 0 port
        (str "nated." ++ labelZ ++ str "." ++ zoneEx) ∈
        (handleSRV zoneEx (handleEndpointUpdate (str "100.64.0.1")
            { cache := [(keyZ, peerEx)], kv := [] }
            { method := str "POST", body := some reqC7, xff := [],
              remoteAddr := str "100.64.0.1:41000" } 9).2.cache
          (str "_wireguard._udp." ++ labelZ ++ str "." ++ zoneEx)).answers) ↔
      peerEx.natEndpoint ≠ [] ∧ (splitHostPort peerEx.natEndpoint).isSome = true) :=
  c7_amended (str "100.64.0.1") zoneEx { cache := [(keyZ, peerEx)], kv := [] } keyZ labelZ
    peerEx reqC7 [] (str "100.64.0.1:41000") 9 (by decide) (by decide) (Or.inl (by decide))
    (by decide) (by decide) (by decide) (by decide)

/-! Substring-search lemmas for the startup loader's marker scan. -/

theorem isPfx_of_append_le : ∀ (M A S : Str), isPfx M (A ++ S) = true →
    M.length ≤ A.length → isPfx M A = true := by
  intro M
  induction M with
  | nil => intro A S _ _; rfl
  | cons m mt ih =>
    intro A S h hlen
    cases A with
    | nil => simp at hlen
    | cons a t =>
      simp only [List.cons_append, isPfx, Bool.and_eq_true] at h ⊢
      exact ⟨h.1, ih t S h.2 (by simpa using hlen)⟩

theorem isPfx_append_split : ∀ (A M S : Str), isPfx M (A ++ S) = true →
    A.length < M.length → A = M.take A.length ∧ isPfx (M.drop A.length) S = true := by
  intro A
  induction A with
  | nil => intro M S h _; exact ⟨rfl, h⟩
  | cons a t ih =>
    intro M S h hlen
    cases M with
    | nil => simp at hlen
    | cons m mt =>
      simp only [List.cons_append, isPfx, Bool.and_eq_true, beq_iff_eq] at h
      obtain ⟨h1, h2⟩ := ih mt S h.2 (by simpa using hlen)
      refine ⟨?_, ?_⟩
      · simp only [List.length_cons, List.take_succ_cons, List.cons.injEq]
        exact ⟨h.1.symm, h1⟩
      · simpa using h2

theorem isPfx_extend : ∀ (M A B : Str), isPfx M A = true → isPfx M (A ++ B) = true := by
  intro M
  induction M with
  | nil => intro A B _; rfl
  | cons m mt ih =>
    intro A B h
    cases A with
    | nil => simp [isPfx] at h
    | cons a t =>
      simp only [isPfx, Bool.and_eq_true] at h
      simp only [List.cons_append, isPfx, Bool.and_eq_true]
      exact ⟨h.1, ih t B h.2⟩

theorem isPfx_refl (a : Str) : isPfx a a = true := by
  have := isPfx_append_self a []
  simpa using this

theorem firstOcc_none_forall : ∀ (K M : Str), firstOcc K M = none →
    ∀ i, isPfx M (K.drop i) = false := by
  intro K
  induction K with
  | nil =>
    intro M h i
    simp only [firstOcc] at h
    cases hb : isPfx M [] with
    | false => simpa using hb
    | true => rw [if_pos hb] at h; exact absurd h (by simp)
  | cons a t ih =>
    intro M h i
    simp only [firstOcc] at h
    cases hb : isPfx M (a :: t) with
    | true => rw [if_pos hb] at h; exact absurd h (by simp)
    | false =>
      rw [if_neg (by simp [hb])] at h
      have ht : firstOcc t M = none := by
        cases hft : firstOcc t M with
        | none => rfl
        | some j => rw [hft] at h; exact absurd h (by simp)
      cases i with
      | zero => simpa using hb
      | succ j => exact ih M ht j

theorem firstOcc_append_of_no_early (K S M : Str)
    (h : ∀ i, i < K.length → isPfx M (K.drop i ++ S) = false) :
    firstOcc (K ++ S) M = (firstOcc S M).map (fun j => j + K.length) := by
  induction K with
  | nil => cases hS : firstOcc S M <;> simp [hS]
  | cons a t ih =>
    have h0 : isPfx M (a :: (t ++ S)) = false := by
      have := h 0 (by simp)
      simpa using this
    have hshift : ∀ i, i < t.length → isPfx M (t.drop i ++ S) = false := by
      intro i hi
      have := h (i + 1) (by simp; omega)
      simpa using this
    simp only [List.cons_append, firstOcc, List.append_eq]
    rw [if_neg (by simp [h0])]
    rw [ih hshift]
    cases hS : firstOcc S M <;> simp [hS]
    omega

/-- No occurrence of a field marker M can start strictly inside the key
part of a row key K ++ S, given that M does not occur in K ++ "/", that S
starts with a slash, and that the only tail of M that is a prefix of S is
the bare slash. -/
theorem no_early_of_clean (K S M : Str)
    (hK : firstOcc (K ++ str "/") M = none)
    (hM : ∀ t, t < M.length → 0 < t → isPfx (M.drop t) S = true → M.drop t = str "/") :
    ∀ i, i < K.length → isPfx M (K.drop i ++ S) = false := by
  intro i hi
  have hKall := firstOcc_none_forall (K ++ str "/") M hK
  cases hb : isPfx M (K.drop i ++ S) with
  | false => rfl
  | true =>
    exfalso
    have hdropi : (K ++ str "/").drop i = K.drop i ++ str "/" :=
      List.drop_append_of_le_length (by omega)
    by_cases hlen : M.length ≤ (K.drop i).length
    · have h1 : isPfx M (K.drop i) = true := isPfx_of_append_le M (K.drop i) S hb hlen
      have h2 : isPfx M (K.drop i ++ str "/") = true := isPfx_extend M (K.drop i) (str "/") h1
      have hc := hKall i
      rw [hdropi, h2] at hc
      exact absurd hc (by simp)
    · have hlt : (K.drop i).length < M.length := by omega
      obtain ⟨heq, hpfx⟩ := isPfx_append_split (K.drop i) M S hb hlt
      have hpos : 0 < (K.drop i).length := by
        rw [List.length_drop]
        omega
      have ht := hM (K.drop i).length hlt hpos hpfx
      have hKM : K.drop i ++ str "/" = M := by
        rw [← ht]
        nth_rewrite 1 [heq]
        exact List.take_append_drop _ M
      have hc := hKall i
      rw [hdropi, hKM, isPfx_refl M] at hc
      exact absurd hc (by simp)

/-- The loader's marker scan on the wg_ip row of a clean key. -/
theorem loaderSplitRow_wgip (K : Str)
    (hw : firstOcc (K ++ str "/") (str "/wg_ip") = none) :
    loaderSplitRow (K ++ str "/wg_ip") = some (K, str "wg_ip") := by
  have hW : firstOcc (K ++ str "/wg_ip") (str "/wg_ip") = some K.length := by
    rw [firstOcc_append_of_no_early K _ _
      (no_early_of_clean K (str "/wg_ip") (str "/wg_ip") hw (by decide))]
    rw [show firstOcc (str "/wg_ip") (str "/wg_ip") = some 0 from by decide]
    simp
  unfold loaderSplitRow
  rw [hW]
  have h1 : (K ++ str "/wg_ip").take K.length = K := List.take_left K _
  have h2 : (K ++ str "/wg_ip").drop (K.length + 1) = str "wg_ip" := List.drop_append 1
  simp [h1, h2]

/-- The loader's marker scan on the alias row of a clean key. -/
theorem loaderSplitRow_alias (K : Str)
    (hw : firstOcc (K ++ str "/") (str "/wg_ip") = none)
    (ha : firstOcc (K ++ str "/") (str "/alias") = none) :
    loaderSplitRow (K ++ str "/alias") = some (K, str "alias") := by
  have hnW : firstOcc (K ++ str "/alias") (str "/wg_ip") = none := by
    rw [firstOcc_append_of_no_early K _ _
      (no_early_of_clean K (str "/alias") (str "/wg_ip") hw (by decide))]
    rw [show firstOcc (str "/alias") (str "/wg_ip") = none from by decide]
    rfl
  have hA : firstOcc (K ++ str "/alias") (str "/alias") = some K.length := by
    rw [firstOcc_append_of_no_early K _ _
      (no_early_of_clean K (str "/alias") (str "/alias") ha (by decide))]
    rw [show firstOcc (str "/alias") (str "/alias") = some 0 from by decide]
    simp
  unfold loaderSplitRow
  rw [hnW, hA]
  have h1 : (K ++ str "/alias").take K.length = K := List.take_left K _
  have h2 : (K ++ str "/alias").drop (K.length + 1) = str "alias" := List.drop_append 1
  simp [h1, h2]

/-- The loader's marker scan on the endpoints/lan row of a clean key. -/
theorem loaderSplitRow_eplan (K : Str)
    (hw : firstOcc (K ++ str "/") (str "/wg_ip") = none)
    (ha : firstOcc (K ++ str "/") (str "/alias") = none)
    (he : firstOcc (K ++ str "/") (str "/endpoints/") = none) :
    loaderSplitRow (K ++ str "/endpoints/lan") = some (K, str "endpoints/lan") := by
  have hnW : firstOcc (K ++ str "/endpoints/lan") (str "/wg_ip") = none := by
    rw [firstOcc_append_of_no_early K _ _
      (no_early_of_clean K (str "/endpoints/lan") (str "/wg_ip") hw (by decide))]
    rw [show firstOcc (str "/endpoints/lan") (str "/wg_ip") = none from by decide]
    rfl
  have hnA : firstOcc (K ++ str "/endpoints/lan") (str "/alias") = none := by
    rw [firstOcc_append_of_no_early K _ _
      (no_early_of_clean K (str "/endpoints/lan") (str "/alias") ha (by decide))]
    rw [show firstOcc (str "/endpoints/lan") (str "/alias") = none from by decide]
    rfl
  have hE : firstOcc (K ++ str "/endpoints/lan") (str "/endpoints/") = some K.length := by
    rw [firstOcc_append_of_no_early K _ _
      (no_early_of_clean K (str "/endpoints/lan") (str "/endpoints/") he (by decide))]
    rw [show firstOcc (str "/endpoints/lan") (str "/endpoints/") = some 0 from by decide]
    simp
  unfold loaderSplitRow
  rw [hnW, hnA, hE]
  have h1 : (K ++ str "/endpoints/lan").take K.length = K := List.take_left K _
  have h2 : (K ++ str "/endpoints/lan").drop (K.length + 1) = str "endpoints/lan" := List.drop_append 1
  simp [h1, h2]

/-- The loader's marker scan on the endpoints/nated row of a clean key. -/
theorem loaderSplitRow_epnat (K : Str)
    (hw : firstOcc (K ++ str "/") (str "/wg_ip") = none)
    (ha : firstOcc (K ++ str "/") (str "/alias") = none)
    (he : firstOcc (K ++ str "/") (str "/endpoints/") = none) :
    loaderSplitRow (K ++ str "/endpoints/nated") = some (K, str "endpoints/nated") := by
  have hnW : firstOcc (K ++ str "/endpoints/nated") (str "/wg_ip") = none := by
    rw [firstOcc_append_of_no_early K _ _
      (no_early_of_clean K (str "/endpoints/nated") (str "/wg_ip") hw (by decide))]
    rw [show firstOcc (str "/endpoints/nated") (str "/wg_ip") = none from by decide]
    rfl
  have hnA : firstOcc (K ++ str "/endpoints/nated") (str "/alias") = none := by
    rw [firstOcc_append_of_no_early K _ _
      (no_early_of_clean K (str "/endpoints/nated") (str "/alias") ha (by decide))]
    rw [show firstOcc (str "/endpoints/nated") (str "/alias") = none from by decide]
    rfl
  have hE : firstOcc (K ++ str "/endpoints/nated") (str "/endpoints/") = some K.length := by
    rw [firstOcc_append_of_no_early K _ _
      (no_early_of_clean K (str "/endpoints/nated") (str "/endpoints/") he (by decide))]
    rw [show firstOcc (str "/endpoints/nated") (str "/endpoints/") = some 0 from by decide]
    simp
  unfold loaderSplitRow
  rw [hnW, hnA, hE]
  have h1 : (K ++ str "/endpoints/nated").take K.length = K := List.take_left K _
  have h2 : (K ++ str "/endpoints/nated").drop (K.length + 1) = str "endpoints/nated" := List.drop_append 1
  simp [h1, h2]

theorem loaderApplyField_wgip (p : PeerInfo) (v : Str) :
    loaderApplyField p (str "wg_ip") v = { p with wgIP := v } := by
  unfold loaderApplyField
  rw [show (str "wg_ip").splitOn 47 = [str "wg_ip"] from by decide]
  rfl

theorem loaderApplyField_alias (p : PeerInfo) (v : Str) :
    loaderApplyField p (str "alias") v = p := by
  unfold loaderApplyField
  rw [show (str "alias").splitOn 47 = [str "alias"] from by decide]
  rfl

theorem loaderApplyField_eplan (p : PeerInfo) (v : Str) :
    loaderApplyField p (str "endpoints/lan") v = { p with lanEndpoint := v } := by
  unfold loaderApplyField
  rw [show (str "endpoints/lan").splitOn 47 = [str "endpoints", str "lan"] from by decide]
  rfl

theorem loaderApplyField_epnat (p : PeerInfo) (v : Str) :
    loaderApplyField p (str "endpoints/nated") v = { p with natEndpoint := v } := by
  unfold loaderApplyField
  rw [show (str "endpoints/nated").splitOn 47 = [str "endpoints", str "nated"] from by decide]
  rfl

/-! Claim C8, amended part. -/

/-- The etcd rows of one peer, in the lexicographic order etcd returns
them, each field optional. -/
def peerRows (K : Str) (al lan nated wg : Option Str) : Kv :=
  (match al with
   | some v => [(str "/valon/peers/" ++ K ++ str "/alias", v)]
   | none => []) ++
  (match lan with
   | some v => [(str "/valon/peers/" ++ K ++ str "/endpoints/lan", v)]
   | none => []) ++
  (match nated with
   | some v => [(str "/valon/peers/" ++ K ++ str "/endpoints/nated", v)]
   | none => []) ++
  (match wg with
   | some v => [(str "/valon/peers/" ++ K ++ str "/wg_ip", v)]
   | none => [])

/-- C8 amended: for a nonempty set of KV rows all belonging to one peer
whose base64 key contains a slash, the startup loader produces exactly
one cache entry, keyed by the full base64 key, with wg_ip and the two
endpoints populated from the row values, the alias value dropped (the
cache record has no alias field), and dirty=false -- provided no field
marker (/wg_ip, /alias, /endpoints/) occurs inside the key followed by a
slash (without this proviso the marker scan can split inside the key, see
the counterexample). -/
theorem c8_amended (K : Str) (al lan nated wg : Option Str) (now : Nat)
    (hslash : K.contains 47 = true)
    (hw : firstOcc (K ++ str "/") (str "/wg_ip") = none)
    (ha : firstOcc (K ++ str "/") (str "/alias") = none)
    (he : firstOcc (K ++ str "/") (str "/endpoints/") = none)
    (hne : al.isSome = true ∨ lan.isSome = true ∨ nated.isSome = true ∨ wg.isSome = true) :
    loadFromEtcd (peerRows K al lan nated wg) now =
      [(K, { pubKey := K, wgIP := wg.getD [], lanEndpoint := lan.getD [],
             natEndpoint := nated.getD [], lastHandshake := 0, updatedAt := now,
             dirty := false })] := by
  have sW := loaderSplitRow_wgip K hw
  have sA := loaderSplitRow_alias K hw ha
  have sL := loaderSplitRow_eplan K hw ha he
  have sN := loaderSplitRow_epnat K hw ha he
  have hpfx : ∀ S : Str,
      isPfx (str "/valon/peers/") (str "/valon/peers/" ++ (K ++ S)) = true :=
    fun S => isPfx_append_self _ _
  have htrim : ∀ S : Str,
      trimPfx (str "/valon/peers/" ++ (K ++ S)) (str "/valon/peers/") = K ++ S :=
    fun S => trimPfx_append _ _
  rcases al with _ | av <;> rcases lan with _ | lv <;> rcases nated with _ | nv <;>
    rcases wg with _ | wv
  · simp at hne
  all_goals
    simp [loadFromEtcd, peerRows, kvRange, List.filter, hpfx, htrim, sW, sA, sL, sN,
      loaderApplyField_wgip, loaderApplyField_alias, loaderApplyField_eplan,
      loaderApplyField_epnat, assocGet, assocSet, cacheSet, PeerInfo.zero]

/-- Witness for the amended C8 at a slash-containing key with all four
rows present. -/
theorem c8_amended_witness :
    loadFromEtcd (peerRows (str "A/AAAAAAAAAAAAAAAAAAAAAAAAAAAAAAAAAAAAAAAAAA=")
        (some (str "alice-macbook")) (some (str "192.168.1.7:51820"))
        (some (str "203.0.113.9:41820")) (some (str "100.64.0.5"))) 4 =
      [(str "A/AAAAAAAAAAAAAAAAAAAAAAAAAAAAAAAAAAAAAAAAAA=",
        { pubKey := str "A/AAAAAAAAAAAAAAAAAAAAAAAAAAAAAAAAAAAAAAAAAA=",
          wgIP := (some (str "100.64.0.5")).getD [],
          lanEndpoint := (some (str "192.168.1.7:51820")).getD [],
          natEndpoint := (some (str "203.0.113.9:41820")).getD [],
          lastHandshake := 0, updatedAt := 4, dirty := false })] :=
  c8_amended (str "A/AAAAAAAAAAAAAAAAAAAAAAAAAAAAAAAAAAAAAAAAAA=")
    (some (str "alice-macbook")) (some (str "192.168.1.7:51820"))
    (some (str "203.0.113.9:41820")) (some (str "100.64.0.5")) 4
    (by decide) (by decide) (by decide) (by decide) (Or.inl (by decide))

end Valon
